import Mathlib

/-!
# CoffeeTime smart coffee machine: NEC infrared receiver

A shallow embedding of `ir_control.c` / `ir_control.h` (pulse capture and frame
decoding) together with the properties proved about it.

Conventions of the embedding:

* machine integers are natural numbers; the only arithmetic that can wrap in the
  source is the `uint64_t` subtraction of two timestamps, modelled by `sub64`;
* the globals `ir_data`, `__last_address`, `__last_command` form the `State`;
  the calls made through `user_function_callback` are recorded, oldest first, in
  the field `calls`;
* two further logs record every store into `ir_data.rises` (the index used) and
  every value stored into `ir_data.cnt`, so that bounds on array indices and on
  the count inside a call can be stated.
-/

namespace IrControl

/-! ## Constants of `ir_control.h` -/

/-- Frame kind `NORMAL` (`#define NORMAL 1`). -/
def NORMAL : Nat := 1

/-- Frame kind `REPEAT` (`#define REPEAT 2`). -/
def REPEAT : Nat := 2

/-- Nominal edge distance of a logical 0, in microseconds. -/
def ZERO_SPACE : Nat := 1125

/-- Nominal edge distance of a logical 1, in microseconds. -/
def ONE_SPACE : Nat := 2250

/-- Longest edge distance inside one transmission, in microseconds. -/
def MAXIMUM_SPACE : Nat := 15000

/-- Nominal edge distance of a repeat code, in microseconds. -/
def REPEAT_SPACE : Nat := 11250

/-! ## Data model -/

/-- The struct `_ir_data`: the live count and the 34 timestamps. -/
structure IrData where
  cnt : Nat
  rises : List Nat
deriving DecidableEq, Repr

/-- One invocation of `user_function_callback (address, command, type)`. -/
structure Call where
  address : Nat
  command : Nat
  type : Nat
deriving DecidableEq, Repr

/-- The globals of `ir_control.c` and the logs of the observable actions:
`ir_data`, `last_address` and `last_command` are the globals `ir_data`,
`__last_address` and `__last_command`; `calls` lists the invocations of
`user_function_callback`, `writes` the indices of the stores into
`ir_data.rises` and `cnts` the values stored into `ir_data.cnt`, each oldest
first. -/
structure State where
  ir_data : IrData
  last_address : Nat
  last_command : Nat
  calls : List Call
  writes : List Nat
  cnts : List Nat
deriving DecidableEq, Repr

/-- Subtraction of two `uint64_t` values, wrapping modulo `2 ^ 64`. -/
def sub64 (a b : Nat) : Nat :=
  (a % 2 ^ 64 + 2 ^ 64 - b % 2 ^ 64) % 2 ^ 64

/-- The test `diff > 0.85 * space && diff < 1.15 * space`. The source compares
the integer `diff` with the products in double precision; the three products
used (`956.25`/`1293.75`, `1912.5`/`2587.5`, `9562.5`/`12937.5`) are at least a
quarter away from every integer, so on integers the comparison agrees with the
exact one, written here with both sides scaled by 100. -/
def in_tolerance (diff space : Nat) : Bool :=
  decide (85 * space < 100 * diff) && decide (100 * diff < 115 * space)

/-- The store `ir_data.rises[i] = v`. -/
def write_rise (s : State) (i v : Nat) : State :=
  { s with
    ir_data := { s.ir_data with rises := s.ir_data.rises.set i v }
    writes := s.writes ++ [i] }

/-- The store `ir_data.cnt = v`. -/
def set_cnt (s : State) (v : Nat) : State :=
  { s with
    ir_data := { s.ir_data with cnt := v }
    cnts := s.cnts ++ [v] }

/-- The call `user_function_callback (address, command, type)`. -/
def user_function_callback (s : State) (address command type : Nat) : State :=
  { s with calls := s.calls ++ [⟨address, command, type⟩] }

/-! ## `reset_ir_data` -/

/-- The loop `for (; i < 34; ++i) ir_data.rises[i] = 0;` with `n` iterations
left, the next one at index `i`. -/
def reset_loop : Nat → Nat → State → State
  | 0, _, s => s
  | n + 1, i, s => reset_loop n (i + 1) (write_rise s i 0)

/-- The function `reset_ir_data`. -/
def reset_ir_data (s : State) : State :=
  reset_loop 34 0 (set_cnt s 0)

/-! ## `process_ir_data` -/

/-- The classification of one edge distance in the decoding loop: `some false`
for the branch "should be a zero", `some true` for "should be a one", `none`
for "bad transmission". -/
def classify (diff : Nat) : Option Bool :=
  if in_tolerance diff ZERO_SPACE then some false
  else if in_tolerance diff ONE_SPACE then some true
  else none

/-- The update of the `uint32_t` accumulator for one classified bit:
`raw >>= 1`, followed by `raw |= 0x80000000` for a one. -/
def push_bit (raw : Nat) (b : Bool) : Nat :=
  if b then (raw >>> 1) ||| 0x80000000 else raw >>> 1

/-- The distance `ir_data.rises[i] - ir_data.rises[i - 1]` computed by the
decoding loop at index `i`. -/
def diff_at (rises : List Nat) (i : Nat) : Nat :=
  sub64 (rises.getD i 0) (rises.getD (i - 1) 0)

/-- The loop `for (; i < 34; ++i)` of `process_ir_data` with `n` iterations
left, the next one at index `i`; `none` is the early `return` on a bad
transmission, `some raw` the accumulator after the last iteration. -/
def decode_loop (rises : List Nat) : Nat → Nat → Nat → Option Nat
  | 0, _, raw => some raw
  | n + 1, i, raw =>
    match classify (diff_at rises i) with
    | some b => decode_loop rises n (i + 1) (push_bit raw b)
    | none => none

/-- Field `adr` of the union over `raw` (first byte in memory; the RP2040 is
little-endian, so this is the least significant byte). -/
def adr (raw : Nat) : Nat := raw % 256

/-- Field `inv_adr` of the union over `raw` (second byte). -/
def inv_adr (raw : Nat) : Nat := raw / 2 ^ 8 % 256

/-- Field `cmd` of the union over `raw` (third byte). -/
def cmd (raw : Nat) : Nat := raw / 2 ^ 16 % 256

/-- Field `inv_cmd` of the union over `raw` (fourth byte). -/
def inv_cmd (raw : Nat) : Nat := raw / 2 ^ 24 % 256

/-- The function `process_ir_data`. -/
def process_ir_data (s : State) (type : Nat) : State :=
  if type = REPEAT then
    user_function_callback s s.last_address s.last_command type
  else
    match decode_loop s.ir_data.rises 32 2 0 with
    | none => s
    | some raw =>
      if adr raw ≠ (inv_adr raw ^^^ 0xff) ∨ cmd raw ≠ (inv_cmd raw ^^^ 0xff) then s
      else
        user_function_callback
          { s with last_address := adr raw, last_command := cmd raw }
          (adr raw) (cmd raw) NORMAL

/-! ## `irq_callback` -/

/-- First part of `irq_callback`: the test of the distance to the previous
edge (`if (ir_data.cnt > 0) { ... }`). -/
def irq_check_gap (s : State) (current_time : Nat) : State :=
  if s.ir_data.cnt > 0 then
    let diff := sub64 current_time (s.ir_data.rises.getD (s.ir_data.cnt - 1) 0)
    if diff > MAXIMUM_SPACE then
      write_rise (reset_ir_data s) 0 current_time
    else if s.ir_data.cnt = 1 ∧ in_tolerance diff REPEAT_SPACE = true then
      reset_ir_data (process_ir_data s REPEAT)
    else s
  else s

/-- Second part of `irq_callback`: `ir_data.rises[ir_data.cnt++] = current_time`. -/
def irq_store (s : State) (current_time : Nat) : State :=
  set_cnt (write_rise s s.ir_data.cnt current_time) (s.ir_data.cnt + 1)

/-- Third part of `irq_callback`: the decode of a full buffer
(`if (ir_data.cnt == 34) { ... }`). -/
def irq_check_full (s : State) : State :=
  if s.ir_data.cnt = 34 then reset_ir_data (process_ir_data s NORMAL) else s

/-- The function `irq_callback`; `current_time` is the value of `time_us_64 ()`. -/
def irq_callback (s : State) (current_time : Nat) : State :=
  irq_check_full (irq_store (irq_check_gap s current_time) current_time)

/-- The function `init_ir_irq_receiver`: the buffer is reset (the installation
of the callback and of the interrupt handler has no counterpart in `State`). -/
def init_ir_irq_receiver (s : State) : State :=
  reset_ir_data s

/-- The globals at program start: `ir_data` zero-initialised, both last values
`0x0`, nothing logged. -/
def boot : State :=
  { ir_data := ⟨0, List.replicate 34 0⟩
    last_address := 0
    last_command := 0
    calls := []
    writes := []
    cnts := [] }

/-- Delivery of a sequence of edges, one `irq_callback` per timestamp. -/
def run_edges (s : State) (ts : List Nat) : State :=
  ts.foldl irq_callback s

/-! ## Vocabulary of the properties -/

/-- The `k`-th data gap `g_k = rises[k + 2] - rises[k + 1]` of a buffer, as the
decoding loop computes it. -/
def gap (rises : List Nat) (k : Nat) : Nat :=
  diff_at rises (k + 2)

/-- The classified bit of the `k`-th data gap: `true` for a gap classified as a
one, `false` for a gap classified as a zero. -/
def gap_bit (rises : List Nat) (k : Nat) : Bool :=
  classify (gap rises k) == some true

/-- Each of the 32 data gaps lies in the zero window or in the one window. -/
def gaps_ok (rises : List Nat) : Prop :=
  ∀ k, k < 32 → classify (gap rises k) ≠ none

instance (rises : List Nat) : Decidable (gaps_ok rises) := by
  unfold gaps_ok
  infer_instance

/-- The number whose bit `j` is `f j` for `j < n` and whose other bits are 0. -/
def bits_value (f : Nat → Bool) : Nat → Nat
  | 0 => 0
  | n + 1 => bits_value f n + (if f n then 2 ^ n else 0)

/-- The `j`-th transmitted byte of a frame: bit `k` is the classified bit of
gap `8 * j + k`. Bytes 0 to 3 are address, inverse address, command and
inverse command. -/
def frame_byte (rises : List Nat) (j : Nat) : Nat :=
  bits_value (fun k => gap_bit rises (8 * j + k)) 8

/-- The complement checksum of the NEC protocol on the transmitted bytes. -/
def checksum_ok (rises : List Nat) : Prop :=
  frame_byte rises 0 = frame_byte rises 1 ^^^ 0xff ∧
    frame_byte rises 2 = frame_byte rises 3 ^^^ 0xff

instance (rises : List Nat) : Decidable (checksum_ok rises) := by
  unfold checksum_ok
  infer_instance

/-- A run of `process_ir_data (NORMAL)` calls, one for each buffer content of
the list in turn (between two calls the capture code refills `ir_data`). -/
def decode_frames (s : State) (frames : List IrData) : State :=
  frames.foldl (fun st d => process_ir_data { st with ir_data := d } NORMAL) s

/-- Every call of the run `decode_frames s frames` rejects its frame: it
returns without invoking the callback. -/
def each_rejected : State → List IrData → Prop
  | _, [] => True
  | s, d :: ds =>
    (process_ir_data { s with ir_data := d } NORMAL).calls = s.calls ∧
      each_rejected (process_ir_data { s with ir_data := d } NORMAL) ds

instance each_rejected_decidable :
    ∀ (s : State) (frames : List IrData), Decidable (each_rejected s frames)
  | _, [] => isTrue trivial
  | s, d :: ds =>
    have := each_rejected_decidable
      (process_ir_data { s with ir_data := d } NORMAL) ds
    show Decidable (_ ∧ _) from inferInstance

/-- Every logged store into `ir_data.rises` used an index below 34 and every
logged value of `ir_data.cnt` is at most 34. -/
def logs_bounded (s : State) : Prop :=
  (∀ i ∈ s.writes, i < 34) ∧ (∀ v ∈ s.cnts, v ≤ 34)

instance (s : State) : Decidable (logs_bounded s) := by
  unfold logs_bounded
  infer_instance

/-- No callback invocation logged so far has kind `NORMAL`: no Normal frame has
been decoded successfully. -/
def no_normal_call (s : State) : Prop :=
  ∀ c ∈ s.calls, c.type ≠ NORMAL

instance (s : State) : Decidable (no_normal_call s) := by
  unfold no_normal_call
  infer_instance

/-- As long as no Normal frame has been decoded, the last successful pair
still has its initial value `(0x0, 0x0)`. -/
def last_pair_initial (s : State) : Prop :=
  no_normal_call s → s.last_address = 0 ∧ s.last_command = 0

/-! ## Sample inputs -/

/-- Edge times of a well-formed frame: 13500 µs header, then address `0x00`,
`0xFF`, command `0xA2` (key POWER), `0x5D`, least significant bit first. -/
def power_frame : List Nat :=
  [1000, 14500, 15625, 16750, 17875, 19000, 20125, 21250, 22375, 23500, 25750,
   28000, 30250, 32500, 34750, 37000, 39250, 41500, 42625, 44875, 46000, 47125,
   48250, 50500, 51625, 53875, 56125, 57250, 59500, 61750, 64000, 65125, 67375,
   68500]

/-- Edge times of a frame with a wrong inverse command: bytes `0x00`, `0xFF`,
`0xA2`, `0x5C`. -/
def bad_checksum_frame : List Nat :=
  [1000, 14500, 15625, 16750, 17875, 19000, 20125, 21250, 22375, 23500, 25750,
   28000, 30250, 32500, 34750, 37000, 39250, 41500, 42625, 44875, 46000, 47125,
   48250, 50500, 51625, 53875, 55000, 56125, 58375, 60625, 62875, 64000, 66250,
   67375]

/-- Edge times of a frame whose data gap 5 (3000 µs) is outside both windows. -/
def bad_gap_frame : List Nat :=
  [1000, 14500, 15625, 16750, 17875, 19000, 20125, 23125, 24250, 25375, 27625,
   29875, 32125, 34375, 36625, 38875, 41125, 43375, 44500, 46750, 47875, 49000,
   50125, 52375, 53500, 55750, 58000, 59125, 61375, 63625, 65875, 67000, 69250,
   70375]

/-- Edge times whose first data gap is a one (2250 µs) and whose other 31 data
gaps are zeros (1125 µs). -/
def first_one_frame : List Nat :=
  [0, 13500, 15750, 16875, 18000, 19125, 20250, 21375, 22500, 23625, 24750,
   25875, 27000, 28125, 29250, 30375, 31500, 32625, 33750, 34875, 36000, 37125,
   38250, 39375, 40500, 41625, 42750, 43875, 45000, 46125, 47250, 48375, 49500,
   50625]

/-- The state at program start with the given buffer content. -/
def with_buffer (cnt : Nat) (rises : List Nat) : State :=
  { boot with ir_data := ⟨cnt, rises⟩ }

/-! ## `get_key_name` -/

/-- The function `get_key_name`: the `switch` over the command value, one test
per `case` label, the last branch being `default`. -/
def get_key_name (command : Nat) : String :=
  if command = 0x00A2 then "POWER"
  else if command = 0x00E2 then "MENU"
  else if command = 0x0022 then "TEST"
  else if command = 0x0002 then "+"
  else if command = 0x00C2 then "BACK"
  else if command = 0x00E0 then "PREVIOUS"
  else if command = 0x00A8 then "PLAY"
  else if command = 0x0090 then "NEXT"
  else if command = 0x0068 then "0"
  else if command = 0x0098 then "-"
  else if command = 0x00B0 then "C"
  else if command = 0x0030 then "1"
  else if command = 0x0018 then "2"
  else if command = 0x007A then "3"
  else if command = 0x0010 then "4"
  else if command = 0x0038 then "5"
  else if command = 0x005A then "6"
  else if command = 0x0042 then "7"
  else if command = 0x004A then "8"
  else if command = 0x0052 then "9"
  else "Invalid key"

/-- The strings that `get_key_name` can return: the 20 key names and the
result of the `default` label. -/
def key_names : List String :=
  ["POWER", "MENU", "TEST", "+", "BACK", "PREVIOUS", "PLAY", "NEXT", "0", "-", "C", "1", "2",
    "3", "4", "5", "6", "7", "8", "9", "Invalid key"]

/-- The byte values that `get_key_name` maps to a named key, in increasing
order. -/
def named_commands : List Nat :=
  (List.range 256).filter (fun c => get_key_name c != "Invalid key")

end IrControl

/-!
# Workflow of the coffee machine

A shallow embedding of `state.c` (`manage_state`), `user_interface.c`
(`ir_callback`), the scheduling and resource routines of `sensors.c` and
`prepare_coffee` of `internal_operations.c`.

Conventions of the embedding:

* the globals of `state.c` form `Globals`; `water_ml` and `coffee_beans_g` are
  `float` variables that only ever hold integers far below `2 ^ 24` (1000 and
  250 at start and after a refill, decremented by `int` values), on which
  `float` arithmetic and comparison are exact, so they are integers here; `int`
  arithmetic is not wrapped (signed overflow is undefined in the source);
* `uint8_t` results are reduced modulo 256;
* the calls `lcd_clear`, `lcd_set_cursor`, `lcd_print` made by `ir_callback`
  and `manage_state` themselves and the calls of the `display_*` routines are
  logged in the field `display`; LEDs, buzzer, motors, delays and the display
  calls of the other routines are not modelled;
* what a routine reads from the hardware or from the user while it runs (clock
  bytes, ADC value, keys seen before a deadline, interrupts during a wait) is
  an argument of its model; `none` means that the call does not return a value:
  it waits forever, or it reads outside an array.
-/

namespace Machine

set_option linter.unusedVariables false

/-! ## Data model -/

/-- The enum `State` of `state.h`. -/
inductive State where
  | STATE_INITIAL_SCREEN
  | STATE_SELECT_CUPS
  | STATE_SCHEDULE_OR_NOW
  | STATE_BREWING
  | STATE_SCHEDULING
  | STATE_WAITING
deriving DecidableEq, Repr

open State

/-- The struct `ScheduledTime` of `sensors.h`. -/
structure ScheduledTime where
  day : Nat
  month : Nat
  hour : Nat
  minutes : Nat
  valid_time : Bool
deriving DecidableEq, Repr

/-- One logged display action. -/
inductive Display where
  | lcd_clear
  | lcd_set_cursor (row col : Nat)
  | lcd_print (text : String)
  | display_initial_screen
  | display_clock
  | display_temperature_humidity
deriving DecidableEq, Repr

/-- The globals of `state.c` and the log of the display actions. -/
structure Globals where
  water_ml : Int
  coffee_beans_g : Int
  cups : Int
  play_pressed : Bool
  greeting_displayed : Bool
  prepare_now : Bool
  key_pressed : Bool
  key : String
  scheduled_time : ScheduledTime
  current_state : State
  last_displayed_state : State
  display : List Display
deriving DecidableEq, Repr

/-- The initial values of the globals of `state.c`. -/
def initial : Globals :=
  { water_ml := 1000
    coffee_beans_g := 250
    cups := 0
    play_pressed := false
    greeting_displayed := false
    prepare_now := false
    key_pressed := false
    key := ""
    scheduled_time := ⟨0, 0, 0, 0, false⟩
    current_state := STATE_INITIAL_SCREEN
    last_displayed_state := STATE_INITIAL_SCREEN
    display := [] }

/-! ## `ir_callback` -/

/-- The function `ir_callback` of `user_interface.c`. -/
def ir_callback (g : Globals) (address command type : Nat) : Globals :=
  let key_name := IrControl.get_key_name command
  let g1 : Globals :=
    if key_name.length > 0 then
      { g with key_pressed := true, key := String.mk (key_name.data.take 15) }
    else g
  if key_name = "PLAY" then
    { g1 with play_pressed := true }
  else if g1.current_state = STATE_SELECT_CUPS then
    if key_name = "0" then
      { g1 with
        display := g1.display ++ [Display.lcd_clear, Display.display_initial_screen]
        current_state := STATE_INITIAL_SCREEN }
    else if key_name = "1" ∨ key_name = "2" ∨ key_name = "3" ∨ key_name = "4" ∨
        key_name = "5" then
      { g1 with
        cups := ((key_name.data.headD '0').toNat : Int) - ('0'.toNat : Int)
        current_state := STATE_SCHEDULE_OR_NOW }
    else
      { g1 with
        display := g1.display ++
          [Display.lcd_clear, Display.lcd_set_cursor 0 0, Display.lcd_print ("INVALID KEY"),
            Display.lcd_set_cursor 2 0, Display.lcd_print ("PLEASE SELECT 1 TO 5")] }
  else if g1.current_state = STATE_SCHEDULE_OR_NOW then
    if key_name = "1" then
      { g1 with prepare_now := true, current_state := STATE_BREWING }
    else if key_name = "2" then
      { g1 with prepare_now := false, current_state := STATE_SCHEDULING }
    else g1
  else g1

/-- Delivery of a sequence of decoded frames, one `ir_callback` per frame. -/
def deliver (g : Globals) (frames : List IrControl.Call) : Globals :=
  frames.foldl (fun st c => ir_callback st c.address c.command c.type) g

/-! ## Clock, date and schedule configuration (`sensors.c`) -/

/-- The conversion `(b & 0x0F) + ((b >> 4) * 10)` of a clock register, stored in
a `uint8_t`. -/
def from_bcd (b : Nat) : Nat :=
  ((b &&& 0x0F) + (b >>> 4) * 10) % 256

/-- The table `days_in_month` of `increment_date`. -/
def days_in_month : List Nat :=
  [31, 28, 31, 30, 31, 30, 31, 31, 30, 31, 30, 31]

/-- The function `increment_date` on `(day, month, year)`; `none` when
`days_in_month[*month - 1]` is read outside the table. -/
def increment_date (day month year : Nat) : Option (Nat × Nat × Nat) :=
  if 1 ≤ month ∧ month ≤ 12 then
    let max_days :=
      if month = 2 ∧ ((year % 4 = 0 ∧ year % 100 ≠ 0) ∨ year % 400 = 0) then 29
      else days_in_month.getD (month - 1) 0
    if day < max_days then some ((day + 1) % 256, month, year)
    else if month < 12 then some (1, (month + 1) % 256, year)
    else some (1, 1, (year + 1) % 256)
  else none

/-- What the loop of `configure_day` sees before its 30 s deadline: key `+`,
key `-`, or neither. -/
inductive DayChoice where
  | tomorrow
  | today
  | timeout
deriving DecidableEq, Repr

/-- The function `configure_day` on the day and month of the schedule;
`rtc_data` holds the bytes read by `get_current_date`. -/
def configure_day (st : ScheduledTime) (rtc_data : List Nat) (choice : DayChoice) :
    Option ScheduledTime :=
  let current_day := from_bcd (rtc_data.getD 4 0)
  let current_month := from_bcd (rtc_data.getD 5 0)
  let current_year := from_bcd (rtc_data.getD 6 0)
  match choice with
  | DayChoice.tomorrow =>
    match increment_date current_day current_month current_year with
    | some (d, m, _) => some { st with day := d, month := m }
    | none => none
  | DayChoice.today => some { st with day := current_day, month := current_month }
  | DayChoice.timeout => some st

/-- The function `read_digit`: the digit of the key seen before the deadline,
or the default `0xFF`. -/
def read_digit (seen : Option (Fin 10)) : Nat :=
  match seen with
  | some d => d.val
  | none => 0xFF

/-- The function `configure_hour`: the hour computed from the results of its
two `read_digit` calls. -/
def configure_hour (first second : Nat) : Nat :=
  let first_digit := if first > 2 then 0 else first
  let second_digit := if first_digit = 2 ∧ second > 3 then 0 else second
  (first_digit * 10 + second_digit) % 256

/-- The function `configure_minutes`: the minutes computed from the results of
its two `read_digit` calls. -/
def configure_minutes (first second : Nat) : Nat :=
  let first_digit := if first > 5 then 0 else first
  (first_digit * 10 + second) % 256

/-- The condition of `STATE_VALIDATION` in `configure_schedule`: "the scheduled
time is in the future". -/
def schedule_in_future (st : ScheduledTime)
    (current_day current_month current_hour current_minute : Nat) : Bool :=
  decide (st.month > current_month ∨
    (st.month = current_month ∧ st.day > current_day) ∨
    (st.month = current_month ∧ st.day = current_day ∧
      (st.hour > current_hour ∨
        (st.hour = current_hour ∧ st.minutes > current_minute))))

/-- What one pass of `configure_schedule` through its configuration states
reads: the clock bytes and the key in `configure_day`, the keys seen by the four
`read_digit` calls and the clock bytes in `STATE_VALIDATION`. -/
structure ConfigPass where
  date_rtc_data : List Nat
  choice : DayChoice
  hour_first : Option (Fin 10)
  hour_second : Option (Fin 10)
  minutes_first : Option (Fin 10)
  minutes_second : Option (Fin 10)
  rtc_data : List Nat
deriving DecidableEq, Repr

/-- The states `STATE_CONFIG_DAY`, `STATE_CONFIG_HOUR` and
`STATE_CONFIG_MINUTES` of `configure_schedule` in sequence, on the local
`scheduled_time`. -/
def configure_fields (st : ScheduledTime) (pass : ConfigPass) : Option ScheduledTime :=
  match configure_day st pass.date_rtc_data pass.choice with
  | none => none
  | some st1 =>
    some
      { st1 with
        hour := configure_hour (read_digit pass.hour_first) (read_digit pass.hour_second)
        minutes :=
          configure_minutes (read_digit pass.minutes_first) (read_digit pass.minutes_second) }

/-- The test of `STATE_VALIDATION` on the clock bytes read there. -/
def validation (st : ScheduledTime) (rtc_data : List Nat) : Bool :=
  schedule_in_future st (from_bcd (rtc_data.getD 4 0)) (from_bcd (rtc_data.getD 5 0))
    (from_bcd (rtc_data.getD 2 0)) (from_bcd (rtc_data.getD 1 0))

/-- The loop of `configure_schedule` from `STATE_CONFIG_DAY` with the local
`scheduled_time` equal to `st`. Each element of the list is one pass
`STATE_CONFIG_DAY`, `STATE_CONFIG_HOUR`, `STATE_CONFIG_MINUTES`,
`STATE_VALIDATION`; after a failed validation the routine stays in
`STATE_INVALID` until the key is `PLAY` and then starts the next pass, so an
exhausted list means that it waits forever. The only `return` is in
`STATE_COMPLETED`, reached from a successful validation. -/
def configure_schedule_from (st : ScheduledTime) : List ConfigPass → Option ScheduledTime
  | [] => none
  | pass :: rest =>
    match configure_fields st pass with
    | none => none
    | some st3 =>
      if validation st3 pass.rtc_data then some { st3 with valid_time := true }
      else configure_schedule_from st3 rest

/-- The test of the loop of `read_digit`:
`strlen (key) == 1 && isdigit (key[0])`. -/
def is_digit_key (key : String) : Bool :=
  key.length == 1 && (key.data.headD ' ').isDigit

/-- The test of the loop of `configure_day`: the key is `+` or `-`. -/
def is_day_key (key : String) : Bool :=
  decide (key = "+") || decide (key = "-")

/-- The test of `STATE_INVALID`: the key is `PLAY`. -/
def is_play_key (key : String) : Bool :=
  decide (key = "PLAY")

/-- The frames that arrive around one loop on the key buffer: `before` holds
the frames whose `ir_callback` runs before the loop is entered (during the
display calls and delays that precede it), and each element of `during` holds
the frames whose `ir_callback` runs between two successive tests of the loop. -/
structure KeyWait where
  before : List IrControl.Call
  during : List (List IrControl.Call)
deriving DecidableEq, Repr

/-- A loop that tests the key buffer until `cond` holds: the globals when the
loop is left and whether the test succeeded. With the list exhausted a loop
with a deadline has reached it after a last test, and a loop without a deadline
never ends. -/
def poll_key (cond : String → Bool) :
    List (List IrControl.Call) → Globals → Globals × Bool
  | [], g => (g, cond g.key)
  | batch :: rest, g =>
    if cond g.key then (g, true) else poll_key cond rest (deliver g batch)

/-- The loop of `configure_day` on the key buffer: the globals after it and
what it saw. -/
def observe_day (g : Globals) (w : KeyWait) : Globals × DayChoice :=
  let r := poll_key is_day_key w.during (deliver g w.before)
  (r.1,
    if r.2 then (if r.1.key = "+" then DayChoice.tomorrow else DayChoice.today)
    else DayChoice.timeout)

/-- The loop of `read_digit` on the key buffer: the globals after it and the
digit `key[0] - '0'` it saw, if any. -/
def observe_digit (g : Globals) (w : KeyWait) : Globals × Option (Fin 10) :=
  let r := poll_key is_digit_key w.during (deliver g w.before)
  (r.1,
    if r.2 then
      some ⟨((r.1.key.data.headD '0').toNat - '0'.toNat) % 10, Nat.mod_lt _ (by decide)⟩
    else none)

/-- The interrupts and clock bytes of one pass of `configure_schedule`: the
clock bytes of `configure_day`, the frames around its loop and around the loops
of the four `read_digit` calls, the clock bytes of `STATE_VALIDATION`, and the
frames after the validation: `after.before` during the delay that follows it
(of `STATE_COMPLETED`, or of the report of an invalid time), `after.during`
between the tests of `STATE_INVALID`. -/
structure PassScript where
  date_rtc_data : List Nat
  day : KeyWait
  hour_first : KeyWait
  hour_second : KeyWait
  minutes_first : KeyWait
  minutes_second : KeyWait
  rtc_data : List Nat
  after : KeyWait
deriving DecidableEq, Repr

/-- The loops of one pass on the key buffer, in the order of the calls of
`configure_day`, `configure_hour` and `configure_minutes`: the globals after
them and what the pass read. -/
def observe_pass (g : Globals) (script : PassScript) : Globals × ConfigPass :=
  let d := observe_day g script.day
  let h1 := observe_digit d.1 script.hour_first
  let h2 := observe_digit h1.1 script.hour_second
  let m1 := observe_digit h2.1 script.minutes_first
  let m2 := observe_digit m1.1 script.minutes_second
  (m2.1,
    { date_rtc_data := script.date_rtc_data
      choice := d.2
      hour_first := h1.2
      hour_second := h2.2
      minutes_first := m1.2
      minutes_second := m2.2
      rtc_data := script.rtc_data })

/-- The state `STATE_INVALID` of `configure_schedule` after the report of an
invalid time: the globals when the key buffer holds `PLAY`, and whether it ever
does. -/
def invalid_wait (g : Globals) (w : KeyWait) : Globals × Bool :=
  poll_key is_play_key w.during (deliver g w.before)

/-- The loop of `configure_schedule` from `STATE_CONFIG_DAY` with the local
`scheduled_time` equal to `st`, on the globals `g`: the globals at the `return`
and the value returned. Each element of the list holds the interrupts of one
pass; after a failed validation the routine stays in `STATE_INVALID` until the
key buffer holds `PLAY` and then starts the next pass. -/
def configure_schedule_run (st : ScheduledTime) :
    List PassScript → Globals → Option (Globals × ScheduledTime)
  | [], _ => none
  | script :: rest, g =>
    match configure_fields st (observe_pass g script).2 with
    | none => none
    | some st3 =>
      if validation st3 script.rtc_data then
        some (deliver (observe_pass g script).1 script.after.before,
          { st3 with valid_time := true })
      else if (invalid_wait (observe_pass g script).1 script.after).2 then
        configure_schedule_run st3 rest (invalid_wait (observe_pass g script).1 script.after).1
      else none

/-! ## Resources and preparation -/

/-- The function `read_water_quantity` on the raw ADC value. -/
def read_water_quantity (raw_value : Nat) : Int :=
  50 + ((((raw_value % 65536 : Nat) : Int) * 150) / 4095)

/-- The loop `while (!play_pressed) sleep_ms (200);`: each element of the list
holds the frames whose `ir_callback` runs during one `sleep_ms`; with the list
exhausted and the flag still clear the loop never ends. -/
def wait_for_play : List (List IrControl.Call) → Globals → Option Globals
  | [], g => if g.play_pressed then some g else none
  | batch :: rest, g =>
    if g.play_pressed then some g else wait_for_play rest (deliver g batch)

/-- The function `check_simulated_resources`. -/
def check_simulated_resources (g : Globals) (cups water_per_cup : Int)
    (refill_wait : List (List IrControl.Call)) : Option Globals :=
  let required_beans := cups * 10
  let required_water := cups * water_per_cup
  let needs_refill :=
    decide (g.water_ml < required_water) || decide (g.coffee_beans_g < required_beans)
  if needs_refill then
    match wait_for_play refill_wait g with
    | none => none
    | some g1 =>
      some { g1 with coffee_beans_g := 250, water_ml := 1000, play_pressed := false }
  else some g

/-- The function `prepare_coffee`; `water_raw` is the ADC value read by
`read_water_quantity`. -/
def prepare_coffee (g : Globals) (cups : Int) (water_raw : Nat)
    (refill_wait : List (List IrControl.Call)) : Option Globals :=
  let water_per_cup := read_water_quantity water_raw
  match check_simulated_resources g cups water_per_cup refill_wait with
  | none => none
  | some g1 =>
    let total_water := cups * water_per_cup
    some
      { g1 with
        water_ml := g1.water_ml - total_water
        coffee_beans_g := g1.coffee_beans_g - cups * 10
        display := g1.display ++ [Display.display_initial_screen]
        current_state := STATE_INITIAL_SCREEN }

/-! ## `manage_state` -/

/-- What one call of `manage_state` reads from outside: the clock bytes of
`rtc_read`, the clock bytes and interrupts of the passes of
`configure_schedule`, the ADC value of the water potentiometer and the
interrupts that arrive while a refill is awaited. -/
structure Env where
  rtc_data : List Nat
  config : List PassScript
  water_raw : Nat
  refill_wait : List (List IrControl.Call)
deriving DecidableEq, Repr

/-- The case `STATE_SCHEDULING` of `manage_state` after the call of
`configure_schedule` has returned `st`; `g` holds the globals at the
`return`. -/
def finish_scheduling (g : Globals) (st : ScheduledTime) : Globals :=
  if st.valid_time then
    { g with scheduled_time := st, current_state := STATE_WAITING }
  else
    { g with scheduled_time := st, current_state := STATE_INITIAL_SCREEN }

/-- The function `manage_state` of `state.c` (the `default` label is not
reachable with a value of the enum). -/
def manage_state (g : Globals) (env : Env) : Option Globals :=
  match g.current_state with
  | STATE_INITIAL_SCREEN =>
    let g1 : Globals :=
      if !g.greeting_displayed then
        { g with
          display := g.display ++ [Display.display_initial_screen]
          greeting_displayed := true
          last_displayed_state := STATE_INITIAL_SCREEN }
      else
        { g with
          display := g.display ++ [Display.display_clock, Display.display_temperature_humidity] }
    if g1.play_pressed then
      some
        { g1 with
          current_state := STATE_SELECT_CUPS
          play_pressed := false
          last_displayed_state := STATE_INITIAL_SCREEN }
    else some g1
  | STATE_SELECT_CUPS =>
    if g.last_displayed_state ≠ STATE_SELECT_CUPS then
      some
        { g with
          display := g.display ++
            [Display.lcd_clear, Display.lcd_set_cursor 0 0, Display.lcd_print ("HOW MANY CUPS?"),
              Display.lcd_set_cursor 2 0, Display.lcd_print ("- FROM 1 TO 5"),
              Display.lcd_set_cursor 3 0, Display.lcd_print ("- 0 TO EXIT")]
          last_displayed_state := STATE_SELECT_CUPS }
    else some g
  | STATE_SCHEDULE_OR_NOW =>
    if g.last_displayed_state ≠ STATE_SCHEDULE_OR_NOW then
      some
        { g with
          display := g.display ++
            [Display.lcd_clear, Display.lcd_set_cursor 0 0, Display.lcd_print ("START TIME:"),
              Display.lcd_set_cursor 2 0, Display.lcd_print ("1-NOW"),
              Display.lcd_set_cursor 3 0, Display.lcd_print ("2-SCHEDULE")]
          last_displayed_state := STATE_SCHEDULE_OR_NOW }
    else some g
  | STATE_BREWING => prepare_coffee g g.cups env.water_raw env.refill_wait
  | STATE_SCHEDULING =>
    match configure_schedule_run ⟨0, 0, 0, 0, false⟩ env.config g with
    | none => none
    | some r => some (finish_scheduling r.1 r.2)
  | STATE_WAITING =>
    let current_day := from_bcd (env.rtc_data.getD 4 0)
    let current_month := from_bcd (env.rtc_data.getD 5 0)
    let current_hour := from_bcd (env.rtc_data.getD 2 0)
    let current_minute := from_bcd (env.rtc_data.getD 1 0)
    if current_day = g.scheduled_time.day ∧ current_month = g.scheduled_time.month ∧
        current_hour = g.scheduled_time.hour ∧
        current_minute = g.scheduled_time.minutes then
      some { g with current_state := STATE_BREWING }
    else some g

/-! ## Vocabulary of the properties and sample inputs -/

/-- The command value of key PLAY (the `case` label of `"PLAY"`). -/
def PLAY_command : Nat := 0xA8

/-- The command value of the key labelled with the digit `d` (the `case` labels
of `"0"` to `"9"` in `get_key_name`). -/
def digit_command : Nat → Nat
  | 0 => 0x68
  | 1 => 0x30
  | 2 => 0x18
  | 3 => 0x7A
  | 4 => 0x10
  | 5 => 0x38
  | 6 => 0x5A
  | 7 => 0x42
  | 8 => 0x4A
  | 9 => 0x52
  | _ => 0

/-- The key names of the digits 0 to 5, the keys with an effect in
`STATE_SELECT_CUPS`. -/
def cup_keys : List String := ["0", "1", "2", "3", "4", "5"]

/-- The display actions of the branch "invalid key" of `ir_callback`. -/
def invalid_key_report : List Display :=
  [Display.lcd_clear, Display.lcd_set_cursor 0 0, Display.lcd_print ("INVALID KEY"),
    Display.lcd_set_cursor 2 0, Display.lcd_print ("PLEASE SELECT 1 TO 5")]

/-- Clock bytes for 10 March, 08:01 (seconds, minutes, hours, weekday, day,
month, year, in BCD). -/
def clock_march_10_0801 : List Nat := [0x00, 0x01, 0x08, 0x02, 0x10, 0x03, 0x25]

/-- Clock bytes for 12 May, 07:30. -/
def clock_may_12_0730 : List Nat := [0x00, 0x30, 0x07, 0x02, 0x12, 0x05, 0x25]

/-- Clock bytes for 12 May, 07:31. -/
def clock_may_12_0731 : List Nat := [0x00, 0x31, 0x07, 0x02, 0x12, 0x05, 0x25]

/-- One frame of kind `NORMAL` from address 0 with the given command. -/
def key_frame (command : Nat) : IrControl.Call :=
  ⟨0, command, IrControl.NORMAL⟩

/-- The command value of key `-` (the `case` label of `"-"`). -/
def MINUS_command : Nat := 0x98

/-- A loop on the key buffer before which the key with the given command is
pressed, and during which no frame arrives. -/
def press (command : Nat) : KeyWait :=
  { before := [key_frame command], during := [] }

/-- A loop on the key buffer around which no frame arrives. -/
def no_key : KeyWait :=
  { before := [], during := [] }

/-- The interrupts of a pass on 10 March at 08:01 in which the keys `-`, 0, 9,
0, 0 are pressed, each before the loop that reads it: the pass reads
`good_pass`. -/
def good_script : PassScript :=
  { date_rtc_data := clock_march_10_0801
    day := press MINUS_command
    hour_first := press (digit_command 0)
    hour_second := press (digit_command 9)
    minutes_first := press (digit_command 0)
    minutes_second := press (digit_command 0)
    rtc_data := clock_march_10_0801
    after := no_key }

/-- An environment with the given clock bytes and configuration passes, the
water potentiometer at 0 and no interrupt during a refill wait. -/
def env_of (rtc_data : List Nat) (config : List PassScript) : Env :=
  { rtc_data := rtc_data, config := config, water_raw := 0, refill_wait := [] }

/-- The initial globals in another workflow state and with another cup count. -/
def in_state (st : State) (cups : Int) : Globals :=
  { initial with current_state := st, cups := cups }

/-- One event of the workflow: an invocation of `ir_callback`, a call of
`manage_state`, a call of `manage_state` in which `configure_schedule`, if it is
called, returns the given value (any value, also one the routine cannot
produce) with no frame during the call, or a call of `prepare_coffee` on the
stored cup count. -/
inductive Event where
  | key (address command type : Nat)
  | poll (env : Env)
  | poll_configured (env : Env) (st : ScheduledTime)
  | prepared (water_raw : Nat) (refill_wait : List (List IrControl.Call))
deriving DecidableEq, Repr

/-- The globals after one event; `none` when the call does not return. -/
def step (g : Globals) : Event → Option Globals
  | Event.key address command type => some (ir_callback g address command type)
  | Event.poll env => manage_state g env
  | Event.poll_configured env st =>
    if g.current_state = STATE_SCHEDULING then some (finish_scheduling g st)
    else manage_state g env
  | Event.prepared water_raw refill_wait => prepare_coffee g g.cups water_raw refill_wait

/-- The globals after a sequence of events, each one run to completion. -/
def run_events : Globals → List Event → Option Globals
  | g, [] => some g
  | g, e :: es =>
    match step g e with
    | none => none
    | some g1 => run_events g1 es

/-- The workflow states that carry a cup count. -/
def carries_cups (st : State) : Bool :=
  st == STATE_SCHEDULE_OR_NOW || st == STATE_BREWING || st == STATE_SCHEDULING ||
    st == STATE_WAITING

/-- The cup count is between 1 and 5 whenever the workflow state carries one. -/
def cups_in_range (g : Globals) : Prop :=
  carries_cups g.current_state = true → 1 ≤ g.cups ∧ g.cups ≤ 5

instance (g : Globals) : Decidable (cups_in_range g) := by
  unfold cups_in_range
  infer_instance

/-! ## Gregorian calendar, for comparison with `increment_date` -/

/-- The leap-year rule of the Gregorian calendar. -/
def gregorian_leap (y : Nat) : Bool :=
  decide ((y % 4 = 0 ∧ y % 100 ≠ 0) ∨ y % 400 = 0)

/-- The number of days of month `m` (1 to 12) of the year `y`. -/
def gregorian_month_length (y m : Nat) : Nat :=
  if m = 2 then (if gregorian_leap y then 29 else 28)
  else if m = 4 ∨ m = 6 ∨ m = 9 ∨ m = 11 then 30
  else 31

/-- The calendar day after day `d` of month `m` of the year `2000 + yy`, as
`(day, month, two-digit year)`. -/
def gregorian_next_day (d m yy : Nat) : Nat × Nat × Nat :=
  if d < gregorian_month_length (2000 + yy) m then (d + 1, m, yy)
  else if m < 12 then (1, m + 1, yy)
  else (1, 1, yy + 1)

/-! ## Further sample inputs -/

/-- Clock bytes for 31 December, 23:50. -/
def clock_dec_31_2350 : List Nat := [0x00, 0x50, 0x23, 0x02, 0x31, 0x12, 0x25]

/-- A configuration pass on 31 December at 23:50 that asks for tomorrow,
00:05. -/
def rollover_pass : ConfigPass :=
  { date_rtc_data := clock_dec_31_2350
    choice := DayChoice.tomorrow
    hour_first := some 0
    hour_second := some 0
    minutes_first := some 0
    minutes_second := some 5
    rtc_data := clock_dec_31_2350 }

end Machine

namespace IrControl

/-! ## Lemmas on the accumulator -/

theorem bits_value_lt (f : Nat → Bool) (n : Nat) : bits_value f n < 2 ^ n := by
  induction n with
  | zero => simp [bits_value]
  | succ n ih =>
    have h2 : 2 ^ (n + 1) = 2 ^ n + 2 ^ n := by rw [pow_succ]; omega
    simp only [bits_value]
    split <;> omega

theorem testBit_bits_value (f : Nat → Bool) (n k : Nat) :
    (bits_value f n).testBit k = (decide (k < n) && f k) := by
  induction n with
  | zero => simp [bits_value]
  | succ n ih =>
    have hlt := bits_value_lt f n
    simp only [bits_value]
    by_cases hf : f n = true
    · rw [if_pos hf, Nat.add_comm]
      rcases Nat.lt_trichotomy k n with hk | hk | hk
      · rw [Nat.testBit_two_pow_add_gt hk, ih]
        simp [hk, Nat.lt_succ_of_lt hk]
      · subst hk
        rw [Nat.testBit_two_pow_add_eq, Nat.testBit_lt_two_pow hlt]
        simp [hf]
      · have h2 : 2 ^ n + bits_value f n < 2 ^ k := by
          have : 2 ^ (n + 1) ≤ 2 ^ k := Nat.pow_le_pow_right (by decide) hk
          rw [pow_succ] at this
          omega
        rw [Nat.testBit_lt_two_pow h2]
        have : ¬ k < n + 1 := by omega
        simp [this]
    · rw [if_neg hf, Nat.add_zero, ih]
      have hf' : f n = false := by simpa using hf
      by_cases hk : k = n
      · subst hk; simp [hf']
      · have : (k < n + 1) ↔ (k < n) := by omega
        simp [this]

theorem push_bit_lt (raw : Nat) (b : Bool) (h : raw < 2 ^ 32) :
    push_bit raw b < 2 ^ 32 := by
  have h1 : raw >>> 1 < 2 ^ 32 := by
    rw [Nat.shiftRight_eq_div_pow]; omega
  unfold push_bit
  split
  · exact Nat.or_lt_two_pow h1 (by norm_num)
  · exact h1

theorem testBit_push_bit (raw : Nat) (b : Bool) (k : Nat) (h : raw < 2 ^ 32)
    (hk : k < 32) :
    (push_bit raw b).testBit k = if k = 31 then b else raw.testBit (k + 1) := by
  have h31 : (0x80000000 : Nat) = 2 ^ 31 := by norm_num
  have htop : raw.testBit 32 = false := Nat.testBit_lt_two_pow h
  unfold push_bit
  cases b
  · simp only [Bool.false_eq_true, if_false, Nat.testBit_shiftRight]
    by_cases h1 : k = 31
    · subst h1; simp [htop]
    · simp [h1, Nat.add_comm]
  · simp only [if_true, Nat.testBit_or, Nat.testBit_shiftRight, h31, Nat.testBit_two_pow]
    by_cases h1 : k = 31
    · subst h1; simp
    · have : ¬ 31 = k := fun e => h1 e.symm
      simp [h1, this, Nat.add_comm]

theorem byte_bits_value (f : Nat → Bool) (j : Nat) (hj : j < 4) :
    bits_value f 32 / 2 ^ (8 * j) % 256 = bits_value (fun k => f (8 * j + k)) 8 := by
  apply Nat.eq_of_testBit_eq
  intro k
  rw [show (256 : Nat) = 2 ^ 8 by norm_num, Nat.testBit_mod_two_pow,
    ← Nat.shiftRight_eq_div_pow, Nat.testBit_shiftRight, testBit_bits_value,
    testBit_bits_value]
  by_cases hk : k < 8
  · have : 8 * j + k < 32 := by omega
    simp [hk, this]
  · simp [hk]

/-! ## Lemmas on the decoding loop -/

theorem decode_loop_none (rises : List Nat) :
    ∀ (n i raw : Nat), (∃ j, j < n ∧ classify (diff_at rises (i + j)) = none) →
      decode_loop rises n i raw = none := by
  intro n
  induction n with
  | zero => intro i raw ⟨j, hj, _⟩; omega
  | succ n ih =>
    intro i raw ⟨j, hj, hnone⟩
    simp only [decode_loop]
    cases hc : classify (diff_at rises i) with
    | none => rfl
    | some b =>
      simp only
      apply ih
      cases j with
      | zero => simp [hc] at hnone
      | succ j =>
        refine ⟨j, by omega, ?_⟩
        rw [show i + 1 + j = i + (j + 1) by omega]
        exact hnone

theorem decode_loop_some (rises : List Nat) :
    ∀ (n i raw : Nat), (∀ j, j < n → classify (diff_at rises (i + j)) ≠ none) →
      raw < 2 ^ 32 → n ≤ 32 →
      ∃ r, decode_loop rises n i raw = some r ∧ r < 2 ^ 32 ∧
        ∀ k, k < 32 → r.testBit k =
          if k + n < 32 then raw.testBit (k + n)
          else (classify (diff_at rises (i + (k + n - 32))) == some true) := by
  intro n
  induction n with
  | zero =>
    intro i raw _ hraw _
    refine ⟨raw, rfl, hraw, ?_⟩
    intro k hk
    simp [hk]
  | succ n ih =>
    intro i raw hall hraw hn
    simp only [decode_loop]
    cases hc : classify (diff_at rises i) with
    | none => exact absurd hc (hall 0 (by omega))
    | some b =>
      simp only
      have hall' : ∀ j, j < n → classify (diff_at rises (i + 1 + j)) ≠ none := by
        intro j hj
        rw [show i + 1 + j = i + (j + 1) by omega]
        exact hall (j + 1) (by omega)
      obtain ⟨r, hr, hlt, hbits⟩ := ih (i + 1) (push_bit raw b) hall'
        (push_bit_lt raw b hraw) (by omega)
      refine ⟨r, hr, hlt, ?_⟩
      intro k hk
      rw [hbits k hk]
      by_cases h1 : k + n < 32
      · rw [if_pos h1, testBit_push_bit raw b (k + n) hraw h1]
        by_cases h2 : k + n = 31
        · have h3 : ¬ k + (n + 1) < 32 := by omega
          have h4 : k + (n + 1) - 32 = 0 := by omega
          rw [if_pos h2, if_neg h3, h4, Nat.add_zero, hc]
          cases b <;> rfl
        · have h3 : k + (n + 1) < 32 := by omega
          rw [if_neg h2, if_pos h3]
          rfl
      · have h3 : ¬ k + (n + 1) < 32 := by omega
        rw [if_neg h1, if_neg h3]
        rw [show i + 1 + (k + n - 32) = i + (k + (n + 1) - 32) by omega]

theorem decode_loop_ok (rises : List Nat) (h : gaps_ok rises) :
    decode_loop rises 32 2 0 = some (bits_value (gap_bit rises) 32) := by
  have hall : ∀ j, j < 32 → classify (diff_at rises (2 + j)) ≠ none := by
    intro j hj
    rw [Nat.add_comm]
    exact h j hj
  obtain ⟨r, hr, hlt, hbits⟩ := decode_loop_some rises 32 2 0 hall (by norm_num)
    (Nat.le_refl 32)
  rw [hr]
  congr 1
  apply Nat.eq_of_testBit_eq
  intro k
  rw [testBit_bits_value]
  by_cases hk : k < 32
  · rw [hbits k hk]
    have h1 : ¬ k + 32 < 32 := by omega
    rw [if_neg h1]
    simp [hk, gap_bit, gap, Nat.add_comm]
  · have : r < 2 ^ k := Nat.lt_of_lt_of_le hlt (Nat.pow_le_pow_right (by decide) (by omega))
    rw [Nat.testBit_lt_two_pow this]
    simp [hk]

theorem decode_loop_bad (rises : List Nat) (h : ¬ gaps_ok rises) :
    decode_loop rises 32 2 0 = none := by
  apply decode_loop_none
  unfold gaps_ok at h
  push_neg at h
  obtain ⟨k, hk, hnone⟩ := h
  refine ⟨k, hk, ?_⟩
  rw [Nat.add_comm]
  exact hnone

/-! ## Lemmas on `process_ir_data` -/

theorem adr_bits_value (f : Nat → Bool) :
    adr (bits_value f 32) = bits_value (fun k => f (8 * 0 + k)) 8 := by
  have h := byte_bits_value f 0 (by decide)
  simpa [adr] using h

theorem inv_adr_bits_value (f : Nat → Bool) :
    inv_adr (bits_value f 32) = bits_value (fun k => f (8 * 1 + k)) 8 := by
  have h := byte_bits_value f 1 (by decide)
  simpa [inv_adr] using h

theorem cmd_bits_value (f : Nat → Bool) :
    cmd (bits_value f 32) = bits_value (fun k => f (8 * 2 + k)) 8 := by
  have h := byte_bits_value f 2 (by decide)
  simpa [cmd] using h

theorem inv_cmd_bits_value (f : Nat → Bool) :
    inv_cmd (bits_value f 32) = bits_value (fun k => f (8 * 3 + k)) 8 := by
  have h := byte_bits_value f 3 (by decide)
  simpa [inv_cmd] using h

theorem NORMAL_ne_REPEAT : NORMAL ≠ REPEAT := by decide

theorem process_normal_accept (s : State) (hgaps : gaps_ok s.ir_data.rises)
    (hsum : checksum_ok s.ir_data.rises) :
    process_ir_data s NORMAL =
      { s with
        last_address := frame_byte s.ir_data.rises 0
        last_command := frame_byte s.ir_data.rises 2
        calls := s.calls ++
          [⟨frame_byte s.ir_data.rises 0, frame_byte s.ir_data.rises 2, NORMAL⟩] } := by
  unfold checksum_ok frame_byte at hsum
  obtain ⟨h1, h2⟩ := hsum
  unfold process_ir_data
  rw [if_neg NORMAL_ne_REPEAT, decode_loop_ok _ hgaps]
  simp only [adr_bits_value, inv_adr_bits_value, cmd_bits_value, inv_cmd_bits_value]
  rw [if_neg (by simp only [ne_eq, not_or, not_not]; exact ⟨h1, h2⟩)]
  rfl

theorem process_normal_checksum_fail (s : State) (hgaps : gaps_ok s.ir_data.rises)
    (hsum : ¬ checksum_ok s.ir_data.rises) :
    process_ir_data s NORMAL = s := by
  unfold checksum_ok frame_byte at hsum
  unfold process_ir_data
  rw [if_neg NORMAL_ne_REPEAT, decode_loop_ok _ hgaps]
  simp only [adr_bits_value, inv_adr_bits_value, cmd_bits_value, inv_cmd_bits_value]
  rw [if_pos]
  by_contra hcon
  simp only [ne_eq, not_or, not_not] at hcon
  exact hsum hcon

theorem process_normal_bad_gap (s : State) (hgaps : ¬ gaps_ok s.ir_data.rises) :
    process_ir_data s NORMAL = s := by
  unfold process_ir_data
  rw [if_neg NORMAL_ne_REPEAT, decode_loop_bad _ hgaps]

theorem process_repeat (s : State) :
    process_ir_data s REPEAT =
      user_function_callback s s.last_address s.last_command REPEAT := by
  unfold process_ir_data
  rw [if_pos rfl]

/-! ## Lemmas on `reset_ir_data` -/

theorem reset_loop_frame (n : Nat) :
    ∀ (i : Nat) (s : State),
      (reset_loop n i s).calls = s.calls ∧
      (reset_loop n i s).last_address = s.last_address ∧
      (reset_loop n i s).last_command = s.last_command ∧
      (reset_loop n i s).ir_data.cnt = s.ir_data.cnt ∧
      (reset_loop n i s).cnts = s.cnts ∧
      (reset_loop n i s).writes = s.writes ++ List.range' i n := by
  induction n with
  | zero => intro i s; simp [reset_loop]
  | succ n ih =>
    intro i s
    obtain ⟨h1, h2, h3, h4, h5, h6⟩ := ih (i + 1) (write_rise s i 0)
    simp only [reset_loop]
    refine ⟨h1, h2, h3, h4, h5, ?_⟩
    rw [h6]
    simp [write_rise, List.range'_succ]

theorem reset_loop_rises (n : Nat) :
    ∀ (i : Nat) (s : State) (j : Nat),
      (reset_loop n i s).ir_data.rises[j]? =
        if i ≤ j ∧ j < i + n then
          (if j < s.ir_data.rises.length then some 0 else none)
        else s.ir_data.rises[j]? := by
  induction n with
  | zero =>
    intro i s j
    have h : ¬ (i ≤ j ∧ j < i + 0) := by omega
    simp only [reset_loop]
    rw [if_neg h]
  | succ n ih =>
    intro i s j
    simp only [reset_loop]
    rw [ih (i + 1) (write_rise s i 0) j]
    simp only [write_rise, List.length_set, List.getElem?_set]
    by_cases h1 : i + 1 ≤ j ∧ j < i + 1 + n
    · have h2 : i ≤ j ∧ j < i + (n + 1) := by omega
      rw [if_pos h1, if_pos h2]
    · rw [if_neg h1]
      by_cases h3 : i = j
      · subst h3
        have h2 : i ≤ i ∧ i < i + (n + 1) := by omega
        rw [if_pos rfl, if_pos h2]
      · have h2 : ¬ (i ≤ j ∧ j < i + (n + 1)) := by omega
        rw [if_neg h3, if_neg h2]

theorem reset_calls (s : State) : (reset_ir_data s).calls = s.calls :=
  (reset_loop_frame 34 0 (set_cnt s 0)).1

theorem reset_last_address (s : State) :
    (reset_ir_data s).last_address = s.last_address :=
  (reset_loop_frame 34 0 (set_cnt s 0)).2.1

theorem reset_last_command (s : State) :
    (reset_ir_data s).last_command = s.last_command :=
  (reset_loop_frame 34 0 (set_cnt s 0)).2.2.1

theorem reset_cnt (s : State) : (reset_ir_data s).ir_data.cnt = 0 :=
  (reset_loop_frame 34 0 (set_cnt s 0)).2.2.2.1

theorem reset_cnts (s : State) : (reset_ir_data s).cnts = s.cnts ++ [0] :=
  (reset_loop_frame 34 0 (set_cnt s 0)).2.2.2.2.1

theorem reset_writes (s : State) :
    (reset_ir_data s).writes = s.writes ++ List.range' 0 34 :=
  (reset_loop_frame 34 0 (set_cnt s 0)).2.2.2.2.2

theorem reset_rises (s : State) (hlen : s.ir_data.rises.length = 34) :
    (reset_ir_data s).ir_data.rises = List.replicate 34 0 := by
  apply List.ext_getElem?
  intro j
  unfold reset_ir_data
  rw [reset_loop_rises 34 0 (set_cnt s 0) j]
  simp only [set_cnt, hlen, List.getElem?_replicate]
  by_cases hj : j < 34
  · simp [hj]
  · have : s.ir_data.rises[j]? = none := by
      apply List.getElem?_eq_none
      omega
    simp [hj, this]

theorem reset_ir_data_eq (s : State) (hlen : s.ir_data.rises.length = 34) :
    (reset_ir_data s).ir_data = ⟨0, List.replicate 34 0⟩ := by
  have h1 := reset_cnt s
  have h2 := reset_rises s hlen
  cases h : (reset_ir_data s).ir_data with
  | mk c r =>
    rw [h] at h1 h2
    simp only at h1 h2
    rw [h1, h2]

/-! ## Frame decoding: the properties -/

/-- C1: for every buffer whose 32 data gaps each lie in the zero or the one
window and whose complement checksum holds, `process_ir_data (NORMAL)` invokes
the callback exactly once, with kind `NORMAL`, address the byte whose bit `k`
is the classified bit of gap `k` and command the byte whose bit `k` is the
classified bit of gap `16 + k`, records that pair as the last successful decode
and changes nothing else. -/
theorem process_normal_emits_frame (s : State) (hgaps : gaps_ok s.ir_data.rises)
    (hsum : checksum_ok s.ir_data.rises) :
    process_ir_data s NORMAL =
      { s with
        last_address := bits_value (fun k => gap_bit s.ir_data.rises k) 8
        last_command := bits_value (fun k => gap_bit s.ir_data.rises (16 + k)) 8
        calls := s.calls ++
          [⟨bits_value (fun k => gap_bit s.ir_data.rises k) 8,
            bits_value (fun k => gap_bit s.ir_data.rises (16 + k)) 8, NORMAL⟩] } := by
  rw [process_normal_accept s hgaps hsum]
  simp [frame_byte]

/-- Instance of C1 at the POWER frame: the callback receives address 0 and
command `0xA2`. -/
theorem process_normal_emits_frame_witness :
    gaps_ok (with_buffer 34 power_frame).ir_data.rises ∧
    checksum_ok (with_buffer 34 power_frame).ir_data.rises ∧
    process_ir_data (with_buffer 34 power_frame) NORMAL =
      { with_buffer 34 power_frame with
        last_address := bits_value (fun k => gap_bit power_frame k) 8
        last_command := bits_value (fun k => gap_bit power_frame (16 + k)) 8
        calls := [] ++
          [⟨bits_value (fun k => gap_bit power_frame k) 8,
            bits_value (fun k => gap_bit power_frame (16 + k)) 8, NORMAL⟩] } :=
  ⟨by decide, by decide,
    process_normal_emits_frame (with_buffer 34 power_frame) (by decide) (by decide)⟩

/-- C2: for every buffer whose 32 data gaps are all inside a tolerance window,
`process_ir_data (NORMAL)` invokes the callback if and only if address equals
inverse address XOR `0xFF` and command equals inverse command XOR `0xFF`; when
a relation fails the call changes nothing, in particular neither the list of
callback invocations nor the last successful pair. -/
theorem process_normal_checksum (s : State) (hgaps : gaps_ok s.ir_data.rises) :
    ((∃ c, (process_ir_data s NORMAL).calls = s.calls ++ [c]) ↔
      (frame_byte s.ir_data.rises 0 = frame_byte s.ir_data.rises 1 ^^^ 0xff ∧
        frame_byte s.ir_data.rises 2 = frame_byte s.ir_data.rises 3 ^^^ 0xff)) ∧
    (¬ (frame_byte s.ir_data.rises 0 = frame_byte s.ir_data.rises 1 ^^^ 0xff ∧
        frame_byte s.ir_data.rises 2 = frame_byte s.ir_data.rises 3 ^^^ 0xff) →
      (process_ir_data s NORMAL).calls = s.calls ∧
      (process_ir_data s NORMAL).last_address = s.last_address ∧
      (process_ir_data s NORMAL).last_command = s.last_command) := by
  constructor
  · constructor
    · intro ⟨c, hc⟩
      by_contra hsum
      rw [process_normal_checksum_fail s hgaps hsum] at hc
      simp at hc
    · intro hsum
      rw [process_normal_accept s hgaps hsum]
      exact ⟨_, rfl⟩
  · intro hsum
    rw [process_normal_checksum_fail s hgaps hsum]
    exact ⟨rfl, rfl, rfl⟩

/-- Instance of C2 at a frame whose inverse command is wrong. -/
theorem process_normal_checksum_witness :
    gaps_ok (with_buffer 34 bad_checksum_frame).ir_data.rises ∧
    ¬ (frame_byte bad_checksum_frame 2 = frame_byte bad_checksum_frame 3 ^^^ 0xff) ∧
    (process_ir_data (with_buffer 34 bad_checksum_frame) NORMAL).calls = [] :=
  ⟨by decide, by decide,
    ((process_normal_checksum (with_buffer 34 bad_checksum_frame) (by decide)).2
      (by decide)).1⟩

/-! ## Tolerance windows and bit order -/

theorem in_tolerance_zero (d : Nat) :
    in_tolerance d ZERO_SPACE = true ↔ 957 ≤ d ∧ d ≤ 1293 := by
  simp only [in_tolerance, ZERO_SPACE, Bool.and_eq_true, decide_eq_true_eq]
  omega

theorem in_tolerance_one (d : Nat) :
    in_tolerance d ONE_SPACE = true ↔ 1913 ≤ d ∧ d ≤ 2587 := by
  simp only [in_tolerance, ONE_SPACE, Bool.and_eq_true, decide_eq_true_eq]
  omega

theorem in_tolerance_repeat (d : Nat) :
    in_tolerance d REPEAT_SPACE = true ↔ 9563 ≤ d ∧ d ≤ 12937 := by
  simp only [in_tolerance, REPEAT_SPACE, Bool.and_eq_true, decide_eq_true_eq]
  omega

theorem in_tolerance_rat (d space : Nat) :
    in_tolerance d space = true ↔
      ((85 : ℚ) / 100 * space < d ∧ (d : ℚ) < (115 : ℚ) / 100 * space) := by
  simp only [in_tolerance, Bool.and_eq_true, decide_eq_true_eq]
  constructor
  · intro ⟨h1, h2⟩
    have h1' : ((85 * space : Nat) : ℚ) < ((100 * d : Nat) : ℚ) := by exact_mod_cast h1
    have h2' : ((100 * d : Nat) : ℚ) < ((115 * space : Nat) : ℚ) := by exact_mod_cast h2
    push_cast at h1' h2'
    constructor <;> linarith
  · intro ⟨h1, h2⟩
    have h1' : ((85 * space : Nat) : ℚ) < ((100 * d : Nat) : ℚ) := by
      push_cast; linarith
    have h2' : ((100 * d : Nat) : ℚ) < ((115 * space : Nat) : ℚ) := by
      push_cast; linarith
    exact ⟨by exact_mod_cast h1', by exact_mod_cast h2'⟩

/-- C4: for every gap `d`, the decoder classifies `d` as logical 0 exactly when
`0.85 * 1125 < d < 1.15 * 1125`, that is `957 ≤ d ≤ 1293`, as logical 1 exactly
when `0.85 * 2250 < d < 1.15 * 2250`, that is `1913 ≤ d ≤ 2587`, and otherwise
rejects it, which makes the decoding loop return early; no gap is in both
windows. -/
theorem classify_windows (d : Nat) :
    (classify d = some false ↔ 957 ≤ d ∧ d ≤ 1293) ∧
    (classify d = some true ↔ 1913 ≤ d ∧ d ≤ 2587) ∧
    (classify d = none ↔ ¬ (957 ≤ d ∧ d ≤ 1293) ∧ ¬ (1913 ≤ d ∧ d ≤ 2587)) ∧
    ((957 ≤ d ∧ d ≤ 1293) ↔
      ((85 : ℚ) / 100 * 1125 < d ∧ (d : ℚ) < (115 : ℚ) / 100 * 1125)) ∧
    ((1913 ≤ d ∧ d ≤ 2587) ↔
      ((85 : ℚ) / 100 * 2250 < d ∧ (d : ℚ) < (115 : ℚ) / 100 * 2250)) ∧
    (classify d = none →
      ∀ (rises : List Nat) (n i raw : Nat), diff_at rises i = d →
        decode_loop rises (n + 1) i raw = none) ∧
    ¬ (in_tolerance d ZERO_SPACE = true ∧ in_tolerance d ONE_SPACE = true) := by
  have hz := in_tolerance_zero d
  have ho := in_tolerance_one d
  have hzq := in_tolerance_rat d ZERO_SPACE
  have hoq := in_tolerance_rat d ONE_SPACE
  simp only [ZERO_SPACE, ONE_SPACE, Nat.cast_ofNat] at hzq hoq
  have hc : (classify d = some false ↔ 957 ≤ d ∧ d ≤ 1293) ∧
      (classify d = some true ↔ 1913 ≤ d ∧ d ≤ 2587) ∧
      (classify d = none ↔ ¬ (957 ≤ d ∧ d ≤ 1293) ∧ ¬ (1913 ≤ d ∧ d ≤ 2587)) := by
    unfold classify
    cases h0 : in_tolerance d ZERO_SPACE <;> cases h1 : in_tolerance d ONE_SPACE <;>
      rw [h0] at hz <;> rw [h1] at ho <;>
      simp only [Bool.false_eq_true, false_iff, true_iff] at hz ho <;>
      simp only [Bool.false_eq_true, if_true, if_false, reduceCtorEq, false_iff,
        true_iff, Option.some.injEq] <;>
      omega
  refine ⟨hc.1, hc.2.1, hc.2.2, ?_, ?_, ?_, ?_⟩
  · rw [← hz]; exact hzq
  · rw [← ho]; exact hoq
  · intro hnone rises n i raw hd
    apply decode_loop_none
    exact ⟨0, by omega, by rw [Nat.add_zero, hd]; exact hnone⟩
  · intro ⟨h0, h1⟩
    have := hz.1 h0
    have := ho.1 h1
    omega

/-- C5, as stated (first-received bit in bit 31, last-received bit in bit 0),
fails: for a frame whose first data bit is a one and whose other data bits are
zeros the assembled word is 1, so bit 31 is clear although the first bit is set
and bit 0 is set although the last bit is clear. -/
theorem first_bit_not_msb :
    decode_loop first_one_frame 32 2 0 = some 1 ∧
    gap_bit first_one_frame 0 = true ∧ Nat.testBit 1 31 = false ∧
    gap_bit first_one_frame 31 = false ∧ Nat.testBit 1 0 = true := by
  decide

/-- C5, amended: for every buffer whose 32 data gaps are classified, the loop
of `process_ir_data` returns a 32-bit word whose bit `k` is the `k`-th received
bit; the first-received bit is in the least significant position (bit 0) and
the last-received bit in the most significant position (bit 31). -/
theorem decode_loop_bit_order (rises : List Nat) (hgaps : gaps_ok rises) :
    ∃ raw, decode_loop rises 32 2 0 = some raw ∧ raw < 2 ^ 32 ∧
      (∀ k, k < 32 → raw.testBit k = gap_bit rises k) ∧
      raw.testBit 0 = gap_bit rises 0 ∧ raw.testBit 31 = gap_bit rises 31 := by
  refine ⟨_, decode_loop_ok rises hgaps, bits_value_lt _ 32, ?_, ?_, ?_⟩
  · intro k hk
    rw [testBit_bits_value]
    simp [hk]
  · rw [testBit_bits_value]; simp
  · rw [testBit_bits_value]; simp

/-- Instance of the amended C5 at the POWER frame. -/
theorem decode_loop_bit_order_witness :
    gaps_ok power_frame ∧
    ∃ raw, decode_loop power_frame 32 2 0 = some raw ∧ raw < 2 ^ 32 ∧
      (∀ k, k < 32 → raw.testBit k = gap_bit power_frame k) ∧
      raw.testBit 0 = gap_bit power_frame 0 ∧
      raw.testBit 31 = gap_bit power_frame 31 :=
  ⟨by decide, decode_loop_bit_order power_frame (by decide)⟩

/-! ## Lemmas on the capture code -/

theorem process_normal_cases (s : State) :
    process_ir_data s NORMAL = s ∨
      ∃ a c, process_ir_data s NORMAL =
        { s with
          last_address := a
          last_command := c
          calls := s.calls ++ [⟨a, c, NORMAL⟩] } := by
  unfold process_ir_data
  rw [if_neg NORMAL_ne_REPEAT]
  cases decode_loop s.ir_data.rises 32 2 0 with
  | none => exact Or.inl rfl
  | some raw =>
    simp only
    split
    · exact Or.inl rfl
    · exact Or.inr ⟨adr raw, cmd raw, rfl⟩

theorem process_buffer (s : State) (type : Nat) :
    (process_ir_data s type).ir_data = s.ir_data ∧
    (process_ir_data s type).writes = s.writes ∧
    (process_ir_data s type).cnts = s.cnts := by
  unfold process_ir_data
  split
  · exact ⟨rfl, rfl, rfl⟩
  · cases decode_loop s.ir_data.rises 32 2 0 with
    | none => exact ⟨rfl, rfl, rfl⟩
    | some raw =>
      simp only
      split <;> exact ⟨rfl, rfl, rfl⟩

theorem irq_check_gap_idle (s : State) (t : Nat)
    (hlive : ¬ MAXIMUM_SPACE < sub64 t (s.ir_data.rises.getD (s.ir_data.cnt - 1) 0))
    (hcnt : s.ir_data.cnt ≠ 1) :
    irq_check_gap s t = s := by
  unfold irq_check_gap
  split
  · simp only [gt_iff_lt]
    rw [if_neg hlive, if_neg (fun h => hcnt h.1)]
  · rfl

theorem irq_check_gap_stale (s : State) (t : Nat) (hcnt : 1 ≤ s.ir_data.cnt)
    (hgap : MAXIMUM_SPACE < sub64 t (s.ir_data.rises.getD (s.ir_data.cnt - 1) 0)) :
    irq_check_gap s t = write_rise (reset_ir_data s) 0 t := by
  unfold irq_check_gap
  rw [if_pos (by omega)]
  simp only [gt_iff_lt]
  rw [if_pos hgap]

theorem irq_check_gap_repeat (s : State) (t : Nat) (hcnt : s.ir_data.cnt = 1)
    (hgap : in_tolerance (sub64 t (s.ir_data.rises.getD 0 0)) REPEAT_SPACE = true) :
    irq_check_gap s t = reset_ir_data (process_ir_data s REPEAT) := by
  have hd := (in_tolerance_repeat _).1 hgap
  unfold irq_check_gap
  rw [if_pos (by omega)]
  simp only [gt_iff_lt, hcnt, Nat.sub_self]
  rw [if_neg (by unfold MAXIMUM_SPACE; omega), if_pos ⟨trivial, hgap⟩]

theorem store_first (r : State) (t x : Nat)
    (hr : r.ir_data = ⟨0, x :: List.replicate 33 0⟩) :
    (irq_check_full (irq_store r t)).ir_data = ⟨1, t :: List.replicate 33 0⟩ ∧
    (irq_check_full (irq_store r t)).calls = r.calls ∧
    (irq_check_full (irq_store r t)).last_address = r.last_address ∧
    (irq_check_full (irq_store r t)).last_command = r.last_command := by
  have hst : (irq_store r t).ir_data = ⟨1, t :: List.replicate 33 0⟩ := by
    simp only [irq_store, write_rise, set_cnt, hr]
    rfl
  have hfull : irq_check_full (irq_store r t) = irq_store r t := by
    unfold irq_check_full
    rw [if_neg (by rw [hst]; simp)]
  rw [hfull]
  exact ⟨hst, rfl, rfl, rfl⟩

theorem write_first_after_reset (s : State) (t : Nat)
    (hlen : s.ir_data.rises.length = 34) :
    (write_rise (reset_ir_data s) 0 t).ir_data = ⟨0, t :: List.replicate 33 0⟩ := by
  simp only [write_rise, reset_ir_data_eq s hlen]
  rfl

/-! ## Lemmas on the bounds of the capture code -/

theorem logs_bounded_write (s : State) (i v : Nat) (h : logs_bounded s)
    (hi : i < 34) : logs_bounded (write_rise s i v) := by
  obtain ⟨hw, hc⟩ := h
  refine ⟨?_, hc⟩
  intro j hj
  simp only [write_rise, List.mem_append, List.mem_singleton] at hj
  rcases hj with hj | hj
  · exact hw j hj
  · omega

theorem logs_bounded_set_cnt (s : State) (v : Nat) (h : logs_bounded s)
    (hv : v ≤ 34) : logs_bounded (set_cnt s v) := by
  obtain ⟨hw, hc⟩ := h
  refine ⟨hw, ?_⟩
  intro j hj
  simp only [set_cnt, List.mem_append, List.mem_singleton] at hj
  rcases hj with hj | hj
  · exact hc j hj
  · omega

theorem logs_bounded_reset (s : State) (h : logs_bounded s) :
    logs_bounded (reset_ir_data s) := by
  obtain ⟨hw, hc⟩ := h
  constructor
  · intro j hj
    rw [reset_writes, List.mem_append, List.mem_range'_1] at hj
    rcases hj with hj | hj
    · exact hw j hj
    · omega
  · intro j hj
    rw [reset_cnts, List.mem_append, List.mem_singleton] at hj
    rcases hj with hj | hj
    · exact hc j hj
    · omega

theorem logs_bounded_process (s : State) (type : Nat) (h : logs_bounded s) :
    logs_bounded (process_ir_data s type) := by
  unfold logs_bounded
  rw [(process_buffer s type).2.1, (process_buffer s type).2.2]
  exact h

theorem irq_check_gap_bounds (s : State) (t : Nat) (hcnt : s.ir_data.cnt ≤ 33)
    (h : logs_bounded s) :
    (irq_check_gap s t).ir_data.cnt ≤ 33 ∧ logs_bounded (irq_check_gap s t) := by
  unfold irq_check_gap
  split
  · simp only
    split
    · refine ⟨?_, logs_bounded_write _ _ _ (logs_bounded_reset s h) (by decide)⟩
      show (reset_ir_data s).ir_data.cnt ≤ 33
      rw [reset_cnt]
      omega
    · split
      · refine ⟨?_, logs_bounded_reset _ (logs_bounded_process s REPEAT h)⟩
        rw [reset_cnt]
        omega
      · exact ⟨hcnt, h⟩
  · exact ⟨hcnt, h⟩

theorem irq_store_bounds (s : State) (t : Nat) (hcnt : s.ir_data.cnt ≤ 33)
    (h : logs_bounded s) :
    (irq_store s t).ir_data.cnt ≤ 34 ∧ logs_bounded (irq_store s t) := by
  unfold irq_store
  refine ⟨?_, logs_bounded_set_cnt _ _ (logs_bounded_write s _ t h (by omega)) (by omega)⟩
  show s.ir_data.cnt + 1 ≤ 34
  omega

theorem irq_check_full_bounds (s : State) (hcnt : s.ir_data.cnt ≤ 34)
    (h : logs_bounded s) :
    (irq_check_full s).ir_data.cnt ≤ 33 ∧ logs_bounded (irq_check_full s) := by
  unfold irq_check_full
  split
  · refine ⟨?_, logs_bounded_reset _ (logs_bounded_process s NORMAL h)⟩
    rw [reset_cnt]
    omega
  · exact ⟨by omega, h⟩

theorem irq_callback_bounds (s : State) (t : Nat) (hcnt : s.ir_data.cnt ≤ 33)
    (h : logs_bounded s) :
    (irq_callback s t).ir_data.cnt ≤ 33 ∧ logs_bounded (irq_callback s t) := by
  obtain ⟨h1, h2⟩ := irq_check_gap_bounds s t hcnt h
  obtain ⟨h3, h4⟩ := irq_store_bounds _ t h1 h2
  exact irq_check_full_bounds _ h3 h4

theorem run_edges_bounds (ts : List Nat) :
    ∀ (s : State), s.ir_data.cnt ≤ 33 → logs_bounded s →
      (run_edges s ts).ir_data.cnt ≤ 33 ∧ logs_bounded (run_edges s ts) := by
  induction ts with
  | nil => intro s hcnt h; exact ⟨hcnt, h⟩
  | cons t ts ih =>
    intro s hcnt h
    obtain ⟨h1, h2⟩ := irq_callback_bounds s t hcnt h
    exact ih (irq_callback s t) h1 h2

/-! ## Lemmas on the last successful pair -/

theorem write_rise_out (s : State) (i v : Nat) :
    (write_rise s i v).calls = s.calls ∧
    (write_rise s i v).last_address = s.last_address ∧
    (write_rise s i v).last_command = s.last_command :=
  ⟨rfl, rfl, rfl⟩

theorem irq_store_out (s : State) (t : Nat) :
    (irq_store s t).calls = s.calls ∧
    (irq_store s t).last_address = s.last_address ∧
    (irq_store s t).last_command = s.last_command :=
  ⟨rfl, rfl, rfl⟩

theorem last_pair_initial_of_same (s r : State) (hc : r.calls = s.calls)
    (ha : r.last_address = s.last_address) (hb : r.last_command = s.last_command)
    (h : last_pair_initial s) : last_pair_initial r := by
  intro hno
  rw [ha, hb]
  apply h
  intro c hmem
  exact hno c (by rw [hc]; exact hmem)

theorem last_pair_initial_reset (s : State) (h : last_pair_initial s) :
    last_pair_initial (reset_ir_data s) :=
  last_pair_initial_of_same s _ (reset_calls s) (reset_last_address s)
    (reset_last_command s) h

theorem last_pair_initial_process (s : State) (type : Nat)
    (htype : type = NORMAL ∨ type = REPEAT) (h : last_pair_initial s) :
    last_pair_initial (process_ir_data s type) := by
  rcases htype with htype | htype
  · subst htype
    rcases process_normal_cases s with heq | ⟨a, c, heq⟩
    · rw [heq]; exact h
    · rw [heq]
      intro hno
      exact absurd rfl (hno ⟨a, c, NORMAL⟩ (by simp))
  · subst htype
    rw [process_repeat]
    intro hno
    apply h
    intro c hmem
    exact hno c (by simp [user_function_callback, hmem])

theorem last_pair_initial_irq (s : State) (t : Nat) (h : last_pair_initial s) :
    last_pair_initial (irq_callback s t) := by
  have h1 : last_pair_initial (irq_check_gap s t) := by
    unfold irq_check_gap
    split
    · simp only
      split
      · have hw := write_rise_out (reset_ir_data s) 0 t
        exact last_pair_initial_of_same (reset_ir_data s)
          (write_rise (reset_ir_data s) 0 t) hw.1 hw.2.1 hw.2.2
          (last_pair_initial_reset s h)
      · split
        · exact last_pair_initial_reset _
            (last_pair_initial_process s REPEAT (Or.inr rfl) h)
        · exact h
    · exact h
  have hs := irq_store_out (irq_check_gap s t) t
  have h2 : last_pair_initial (irq_store (irq_check_gap s t) t) :=
    last_pair_initial_of_same (irq_check_gap s t) (irq_store (irq_check_gap s t) t)
      hs.1 hs.2.1 hs.2.2 h1
  unfold irq_callback irq_check_full
  split
  · exact last_pair_initial_reset _ (last_pair_initial_process _ NORMAL (Or.inl rfl) h2)
  · exact h2

theorem last_pair_initial_run (ts : List Nat) :
    ∀ (s : State), last_pair_initial s → last_pair_initial (run_edges s ts) := by
  induction ts with
  | nil => intro s h; exact h
  | cons t ts ih => intro s h; exact ih _ (last_pair_initial_irq s t h)

theorem decode_frames_rejected (frames : List IrData) :
    ∀ (s : State), each_rejected s frames →
      (decode_frames s frames).calls = s.calls ∧
      (decode_frames s frames).last_address = s.last_address ∧
      (decode_frames s frames).last_command = s.last_command := by
  induction frames with
  | nil => intro s _; exact ⟨rfl, rfl, rfl⟩
  | cons d ds ih =>
    intro s h
    obtain ⟨hcalls, hrest⟩ := h
    obtain ⟨h1, h2, h3⟩ := ih _ hrest
    have hstep : decode_frames s (d :: ds) =
        decode_frames (process_ir_data { s with ir_data := d } NORMAL) ds := rfl
    rw [hstep, h1, h2, h3]
    rcases process_normal_cases { s with ir_data := d } with heq | ⟨a, c, heq⟩
    · rw [heq]; exact ⟨rfl, rfl, rfl⟩
    · rw [heq] at hcalls
      simp at hcalls

/-! ## Pulse capture and repeat codes: the properties -/

/-- C3: when the buffer holds 33 edges, the next edge is not stale and the full
buffer it completes has a data gap outside both tolerance windows, the
`irq_callback` call that stores this 34th edge does not invoke the callback,
leaves the last successful pair unchanged and returns with count 0 and all 34
timestamps 0, whatever the rejected frame was. -/
theorem bad_gap_frame_dropped (s : State) (t : Nat)
    (hlen : s.ir_data.rises.length = 34) (hcnt : s.ir_data.cnt = 33)
    (hlive : ¬ 15000 < sub64 t (s.ir_data.rises.getD 32 0))
    (hbad : ¬ gaps_ok (s.ir_data.rises.set 33 t)) :
    (irq_callback s t).calls = s.calls ∧
    (irq_callback s t).last_address = s.last_address ∧
    (irq_callback s t).last_command = s.last_command ∧
    (irq_callback s t).ir_data = ⟨0, List.replicate 34 0⟩ := by
  have hgap : irq_check_gap s t = s := by
    apply irq_check_gap_idle
    · rw [hcnt]; exact hlive
    · omega
  have hstore : (irq_store s t).ir_data = ⟨34, s.ir_data.rises.set 33 t⟩ := by
    simp only [irq_store, write_rise, set_cnt, hcnt]
  have hproc : process_ir_data (irq_store s t) NORMAL = irq_store s t := by
    apply process_normal_bad_gap
    rw [hstore]
    exact hbad
  have hfull : irq_callback s t = reset_ir_data (irq_store s t) := by
    unfold irq_callback irq_check_full
    rw [hgap, if_pos (by rw [hstore]), hproc]
  rw [hfull, reset_calls, reset_last_address, reset_last_command]
  refine ⟨rfl, rfl, rfl, ?_⟩
  apply reset_ir_data_eq
  rw [hstore]
  simp [hlen]

/-- Instance of C3: the last edge of a frame with a 3000 µs data gap. -/
theorem bad_gap_frame_dropped_witness :
    (with_buffer 33 (bad_gap_frame.set 33 0)).ir_data.rises.length = 34 ∧
    (with_buffer 33 (bad_gap_frame.set 33 0)).ir_data.cnt = 33 ∧
    ¬ gaps_ok ((with_buffer 33 (bad_gap_frame.set 33 0)).ir_data.rises.set 33 70375) ∧
    ((irq_callback (with_buffer 33 (bad_gap_frame.set 33 0)) 70375).calls =
        (with_buffer 33 (bad_gap_frame.set 33 0)).calls ∧
      (irq_callback (with_buffer 33 (bad_gap_frame.set 33 0)) 70375).last_address =
        (with_buffer 33 (bad_gap_frame.set 33 0)).last_address ∧
      (irq_callback (with_buffer 33 (bad_gap_frame.set 33 0)) 70375).last_command =
        (with_buffer 33 (bad_gap_frame.set 33 0)).last_command ∧
      (irq_callback (with_buffer 33 (bad_gap_frame.set 33 0)) 70375).ir_data =
        ⟨0, List.replicate 34 0⟩) :=
  ⟨by decide, by decide, by decide,
    bad_gap_frame_dropped (with_buffer 33 (bad_gap_frame.set 33 0)) 70375
      (by decide) (by decide) (by decide) (by decide)⟩

/-- C6: once `process_ir_data (NORMAL)` has accepted a frame, invoking the
callback with `(a, c, NORMAL)`, a following `process_ir_data (REPEAT)`, also
after any number of rejected Normal frames in between, invokes the callback
exactly once, with `(a, c, REPEAT)`, and leaves the last successful pair equal
to `(a, c)`. -/
theorem repeat_after_accept (s : State) (a c : Nat) (frames : List IrData)
    (hacc : (process_ir_data s NORMAL).calls = s.calls ++ [⟨a, c, NORMAL⟩])
    (hrej : each_rejected (process_ir_data s NORMAL) frames) :
    (process_ir_data (decode_frames (process_ir_data s NORMAL) frames) REPEAT).calls =
      (decode_frames (process_ir_data s NORMAL) frames).calls ++ [⟨a, c, REPEAT⟩] ∧
    (decode_frames (process_ir_data s NORMAL) frames).calls =
      s.calls ++ [⟨a, c, NORMAL⟩] ∧
    (process_ir_data (decode_frames (process_ir_data s NORMAL) frames) REPEAT).last_address
      = a ∧
    (process_ir_data (decode_frames (process_ir_data s NORMAL) frames) REPEAT).last_command
      = c := by
  have hlast : (process_ir_data s NORMAL).last_address = a ∧
      (process_ir_data s NORMAL).last_command = c := by
    rcases process_normal_cases s with heq | ⟨a', c', heq⟩
    · rw [heq] at hacc
      simp at hacc
    · rw [heq] at hacc ⊢
      simp only [List.append_cancel_left_eq, List.cons.injEq, Call.mk.injEq,
        and_true] at hacc
      exact ⟨hacc.1, hacc.2⟩
  obtain ⟨h1, h2, h3⟩ := decode_frames_rejected frames _ hrej
  rw [process_repeat]
  simp only [user_function_callback]
  rw [h1, h2, h3, hlast.1, hlast.2, hacc]
  exact ⟨rfl, rfl, rfl, rfl⟩

/-- Instance of C6: the POWER frame, then a frame with a bad gap and a frame
with a wrong checksum, then a repeat. -/
theorem repeat_after_accept_witness :
    (process_ir_data (with_buffer 34 power_frame) NORMAL).calls =
      (with_buffer 34 power_frame).calls ++ [⟨0, 0xA2, NORMAL⟩] ∧
    each_rejected (process_ir_data (with_buffer 34 power_frame) NORMAL)
      [⟨34, bad_gap_frame⟩, ⟨34, bad_checksum_frame⟩] ∧
    (process_ir_data (decode_frames (process_ir_data (with_buffer 34 power_frame) NORMAL)
        [⟨34, bad_gap_frame⟩, ⟨34, bad_checksum_frame⟩]) REPEAT).calls =
      (decode_frames (process_ir_data (with_buffer 34 power_frame) NORMAL)
        [⟨34, bad_gap_frame⟩, ⟨34, bad_checksum_frame⟩]).calls ++ [⟨0, 0xA2, REPEAT⟩] :=
  ⟨by decide, by decide,
    (repeat_after_accept (with_buffer 34 power_frame) 0 0xA2
      [⟨34, bad_gap_frame⟩, ⟨34, bad_checksum_frame⟩] (by decide) (by decide)).1⟩

/-- C7, as stated (a Repeat trigger before any successful decode is a no-op),
fails: right after initialisation `process_ir_data (REPEAT)` invokes the
callback, with address 0, command 0 and kind `REPEAT`. -/
theorem repeat_before_decode_calls :
    (init_ir_irq_receiver boot).calls = [] ∧
    (process_ir_data (init_ir_irq_receiver boot) REPEAT).calls = [⟨0, 0, REPEAT⟩] := by
  decide

/-- C7, amended: after initialisation and any sequence of edges during which no
Normal frame has been decoded successfully, `process_ir_data (REPEAT)` invokes
the callback exactly once, with the initial pair: address 0, command 0, kind
`REPEAT`; it changes nothing else. -/
theorem repeat_before_decode_emits_initial_pair (ts : List Nat)
    (hno : no_normal_call (run_edges (init_ir_irq_receiver boot) ts)) :
    process_ir_data (run_edges (init_ir_irq_receiver boot) ts) REPEAT =
      { run_edges (init_ir_irq_receiver boot) ts with
        calls := (run_edges (init_ir_irq_receiver boot) ts).calls ++ [⟨0, 0, REPEAT⟩] } := by
  have hinit : last_pair_initial (init_ir_irq_receiver boot) := by
    intro _
    unfold init_ir_irq_receiver
    rw [reset_last_address, reset_last_command]
    exact ⟨rfl, rfl⟩
  have h := last_pair_initial_run ts _ hinit hno
  rw [process_repeat]
  simp only [user_function_callback, h.1, h.2]

/-- Instance of the amended C7: a stray edge, then the two edges of a repeat
code, before any frame. -/
theorem repeat_before_decode_emits_initial_pair_witness :
    no_normal_call (run_edges (init_ir_irq_receiver boot) [1000, 120000, 131250]) ∧
    process_ir_data (run_edges (init_ir_irq_receiver boot) [1000, 120000, 131250]) REPEAT =
      { run_edges (init_ir_irq_receiver boot) [1000, 120000, 131250] with
        calls := (run_edges (init_ir_irq_receiver boot) [1000, 120000, 131250]).calls ++
          [⟨0, 0, REPEAT⟩] } :=
  ⟨by decide,
    repeat_before_decode_emits_initial_pair [1000, 120000, 131250] (by decide)⟩

/-- C8: starting from a buffer with count 0, after every finite sequence of
edge timestamps delivered one at a time to `irq_callback` the count is at most
33; every value the count took inside the calls is at most 34 and every store
into the timestamp array used an index below 34 (given that this held for what
was logged before). Every prefix of the sequence is itself such a sequence, so
the bounds hold whenever a call returns. -/
theorem capture_bounds (s : State) (ts : List Nat) (hcnt : s.ir_data.cnt = 0)
    (hw : ∀ i ∈ s.writes, i < 34) (hc : ∀ v ∈ s.cnts, v ≤ 34) :
    (run_edges s ts).ir_data.cnt ≤ 33 ∧
    (∀ v ∈ (run_edges s ts).cnts, v ≤ 34) ∧
    (∀ i ∈ (run_edges s ts).writes, i < 34) := by
  obtain ⟨h1, h2, h3⟩ := run_edges_bounds ts s (by omega) ⟨hw, hc⟩
  exact ⟨h1, h3, h2⟩

/-- Instance of C8: the POWER frame followed by a repeat code. -/
theorem capture_bounds_witness :
    (init_ir_irq_receiver boot).ir_data.cnt = 0 ∧
    (∀ i ∈ (init_ir_irq_receiver boot).writes, i < 34) ∧
    (∀ v ∈ (init_ir_irq_receiver boot).cnts, v ≤ 34) ∧
    ((run_edges (init_ir_irq_receiver boot) (power_frame ++ [120000, 131250])).ir_data.cnt
        ≤ 33 ∧
      (∀ v ∈ (run_edges (init_ir_irq_receiver boot)
        (power_frame ++ [120000, 131250])).cnts, v ≤ 34) ∧
      (∀ i ∈ (run_edges (init_ir_irq_receiver boot)
        (power_frame ++ [120000, 131250])).writes, i < 34)) :=
  ⟨by decide, by decide, by decide,
    capture_bounds (init_ir_irq_receiver boot) (power_frame ++ [120000, 131250])
      (by decide) (by decide) (by decide)⟩

/-- C9: for every buffer with count at least 1 and every edge `t` whose distance
to the last stored edge exceeds 15000 µs, `irq_callback` does not invoke the
callback and returns with count 1, entry 0 equal to `t` and entries 1 to 33
equal to 0. -/
theorem stale_gap_restarts (s : State) (t : Nat)
    (hlen : s.ir_data.rises.length = 34) (hcnt : 1 ≤ s.ir_data.cnt)
    (hgap : 15000 < sub64 t (s.ir_data.rises.getD (s.ir_data.cnt - 1) 0)) :
    (irq_callback s t).calls = s.calls ∧
    (irq_callback s t).ir_data = ⟨1, t :: List.replicate 33 0⟩ := by
  unfold irq_callback
  rw [irq_check_gap_stale s t hcnt hgap]
  obtain ⟨h1, h2, _, _⟩ :=
    store_first (write_rise (reset_ir_data s) 0 t) t t (write_first_after_reset s t hlen)
  rw [h1, h2, (write_rise_out (reset_ir_data s) 0 t).1, reset_calls]
  exact ⟨rfl, rfl⟩

/-- Instance of C9: five stored edges, the next edge 22 ms later. -/
theorem stale_gap_restarts_witness :
    (with_buffer 5 ([1000, 14500, 15625, 16750, 17875] ++ List.replicate 29 0)).ir_data.rises.length
      = 34 ∧
    15000 < sub64 40000 17875 ∧
    (irq_callback (with_buffer 5 ([1000, 14500, 15625, 16750, 17875] ++ List.replicate 29 0))
        40000).calls =
      (with_buffer 5 ([1000, 14500, 15625, 16750, 17875] ++ List.replicate 29 0)).calls ∧
    (irq_callback (with_buffer 5 ([1000, 14500, 15625, 16750, 17875] ++ List.replicate 29 0))
        40000).ir_data = ⟨1, 40000 :: List.replicate 33 0⟩ :=
  ⟨by decide, by decide,
    stale_gap_restarts
      (with_buffer 5 ([1000, 14500, 15625, 16750, 17875] ++ List.replicate 29 0)) 40000
      (by decide) (by decide) (by decide)⟩

/-- C10, as stated (count 0 on return, triggering edge not stored), fails: with
one stored edge at 1000 and the next edge 11250 µs later, inside the repeat
window, `irq_callback` runs the Repeat path and returns with count 1 and the
triggering edge stored as entry 0. -/
theorem repeat_edge_is_stored :
    (with_buffer 1 (1000 :: List.replicate 33 0)).ir_data.cnt = 1 ∧
    in_tolerance (sub64 12250 1000) REPEAT_SPACE = true ∧
    (irq_callback (with_buffer 1 (1000 :: List.replicate 33 0)) 12250).calls =
      [⟨0, 0, REPEAT⟩] ∧
    (irq_callback (with_buffer 1 (1000 :: List.replicate 33 0)) 12250).ir_data.cnt = 1 ∧
    (irq_callback (with_buffer 1 (1000 :: List.replicate 33 0)) 12250).ir_data.rises =
      12250 :: List.replicate 33 0 := by
  decide

/-- C10, amended: for every buffer holding exactly one edge and every edge `t`
whose distance to that edge is within ±15% of 11250 µs (9563 to 12937),
`irq_callback` runs the Repeat path exactly once (one callback invocation with
the last successful pair and kind `REPEAT`), resets the buffer and then stores
the triggering edge as entry 0 of the fresh buffer: on return the count is 1,
entry 0 is `t` and entries 1 to 33 are 0. -/
theorem repeat_gap_emits_and_restarts (s : State) (t : Nat)
    (hlen : s.ir_data.rises.length = 34) (hcnt : s.ir_data.cnt = 1)
    (hlo : 9563 ≤ sub64 t (s.ir_data.rises.getD 0 0))
    (hhi : sub64 t (s.ir_data.rises.getD 0 0) ≤ 12937) :
    (irq_callback s t).calls = s.calls ++ [⟨s.last_address, s.last_command, REPEAT⟩] ∧
    (irq_callback s t).last_address = s.last_address ∧
    (irq_callback s t).last_command = s.last_command ∧
    (irq_callback s t).ir_data = ⟨1, t :: List.replicate 33 0⟩ := by
  have hgap := (in_tolerance_repeat _).2 ⟨hlo, hhi⟩
  have hlen' : (process_ir_data s REPEAT).ir_data.rises.length = 34 := by
    rw [(process_buffer s REPEAT).1]
    exact hlen
  unfold irq_callback
  rw [irq_check_gap_repeat s t hcnt hgap]
  obtain ⟨h1, h2, h3, h4⟩ :=
    store_first (reset_ir_data (process_ir_data s REPEAT)) t 0
      (reset_ir_data_eq _ hlen')
  rw [h1, h2, h3, h4, reset_calls, reset_last_address, reset_last_command, process_repeat]
  exact ⟨rfl, rfl, rfl, rfl⟩

/-- Instance of the amended C10: one stored edge, the next edge 11250 µs later. -/
theorem repeat_gap_emits_and_restarts_witness :
    (with_buffer 1 (1000 :: List.replicate 33 0)).ir_data.rises.length = 34 ∧
    (with_buffer 1 (1000 :: List.replicate 33 0)).ir_data.cnt = 1 ∧
    9563 ≤ sub64 12250 1000 ∧ sub64 12250 1000 ≤ 12937 ∧
    (irq_callback (with_buffer 1 (1000 :: List.replicate 33 0)) 12250).ir_data =
      ⟨1, 12250 :: List.replicate 33 0⟩ :=
  ⟨by decide, by decide, by decide, by decide,
    (repeat_gap_emits_and_restarts (with_buffer 1 (1000 :: List.replicate 33 0)) 12250
      (by decide) (by decide) (by decide) (by decide)).2.2.2⟩

end IrControl

namespace Machine

open State

set_option maxRecDepth 100000

/-! ## Lemmas on `ir_callback` -/

theorem get_key_name_large (command : Nat) (h : 256 ≤ command) :
    IrControl.get_key_name command = "Invalid key" := by
  unfold IrControl.get_key_name
  iterate 20 rw [if_neg (by omega)]

theorem get_key_name_byte :
    ∀ command, command < 256 →
      IrControl.get_key_name command ∈ IrControl.key_names := by
  decide

theorem get_key_name_mem (command : Nat) :
    IrControl.get_key_name command ∈ IrControl.key_names := by
  by_cases h : command < 256
  · exact get_key_name_byte command h
  · rw [get_key_name_large command (by omega)]
    decide

theorem key_name_length_pos (command : Nat) :
    (IrControl.get_key_name command).length > 0 := by
  have h := get_key_name_mem command
  have h2 : ∀ k ∈ IrControl.key_names, k.length > 0 := by decide
  exact h2 _ h

/-- The globals after the first statement of `ir_callback`: the key is
published. -/
theorem ir_callback_unfold (g : Globals) (address command type : Nat) :
    ir_callback g address command type =
      (if IrControl.get_key_name command = "PLAY" then
        { g with
          key_pressed := true
          key := String.mk ((IrControl.get_key_name command).data.take 15)
          play_pressed := true }
      else if g.current_state = STATE_SELECT_CUPS then
        if IrControl.get_key_name command = "0" then
          { g with
            key_pressed := true
            key := String.mk ((IrControl.get_key_name command).data.take 15)
            display := g.display ++ [Display.lcd_clear, Display.display_initial_screen]
            current_state := STATE_INITIAL_SCREEN }
        else if IrControl.get_key_name command = "1" ∨
            IrControl.get_key_name command = "2" ∨
            IrControl.get_key_name command = "3" ∨
            IrControl.get_key_name command = "4" ∨
            IrControl.get_key_name command = "5" then
          { g with
            key_pressed := true
            key := String.mk ((IrControl.get_key_name command).data.take 15)
            cups := (((IrControl.get_key_name command).data.headD '0').toNat : Int) -
              ('0'.toNat : Int)
            current_state := STATE_SCHEDULE_OR_NOW }
        else
          { g with
            key_pressed := true
            key := String.mk ((IrControl.get_key_name command).data.take 15)
            display := g.display ++
              [Display.lcd_clear, Display.lcd_set_cursor 0 0,
                Display.lcd_print ("INVALID KEY"), Display.lcd_set_cursor 2 0,
                Display.lcd_print ("PLEASE SELECT 1 TO 5")] }
      else if g.current_state = STATE_SCHEDULE_OR_NOW then
        if IrControl.get_key_name command = "1" then
          { g with
            key_pressed := true
            key := String.mk ((IrControl.get_key_name command).data.take 15)
            prepare_now := true
            current_state := STATE_BREWING }
        else if IrControl.get_key_name command = "2" then
          { g with
            key_pressed := true
            key := String.mk ((IrControl.get_key_name command).data.take 15)
            prepare_now := false
            current_state := STATE_SCHEDULING }
        else
          { g with
            key_pressed := true
            key := String.mk ((IrControl.get_key_name command).data.take 15) }
      else
        { g with
          key_pressed := true
          key := String.mk ((IrControl.get_key_name command).data.take 15) }) := by
  unfold ir_callback
  simp only [gt_iff_lt, key_name_length_pos, if_true]

theorem get_key_name_digit :
    ∀ d, d < 10 →
      IrControl.get_key_name (digit_command d) = String.singleton (Char.ofNat (48 + d)) := by
  decide

/-! ## Key table and workflow: the properties -/

/-- C11, as stated (exactly 16 byte values map to a named key), fails: the
`switch` of `get_key_name` has 20 `case` labels, so 20 byte values map to a
named key. -/
theorem named_commands_not_sixteen :
    IrControl.named_commands.length = 20 ∧ IrControl.named_commands.length ≠ 16 := by
  decide

/-- C11, amended: `get_key_name` is a function of the command value alone;
exactly 20 byte values map to a named key, each to the name of its `case`
label, and every other byte value maps to `"Invalid key"`. -/
theorem get_key_name_table :
    IrControl.named_commands =
      [0x02, 0x10, 0x18, 0x22, 0x30, 0x38, 0x42, 0x4A, 0x52, 0x5A, 0x68, 0x7A, 0x90, 0x98,
        0xA2, 0xA8, 0xB0, 0xC2, 0xE0, 0xE2] ∧
    IrControl.named_commands.length = 20 ∧
    (∀ c, c < 256 → c ∉ IrControl.named_commands →
      IrControl.get_key_name c = "Invalid key") ∧
    (∀ c, c < 256 → c ∈ IrControl.named_commands →
      IrControl.get_key_name c ≠ "Invalid key") ∧
    [0xA2, 0xE2, 0x22, 0x02, 0xC2, 0xE0, 0xA8, 0x90, 0x68, 0x98, 0xB0, 0x30, 0x18, 0x7A,
        0x10, 0x38, 0x5A, 0x42, 0x4A, 0x52].map IrControl.get_key_name =
      ["POWER", "MENU", "TEST", "+", "BACK", "PREVIOUS", "PLAY", "NEXT", "0", "-", "C", "1",
        "2", "3", "4", "5", "6", "7", "8", "9"] := by
  decide

theorem ir_callback_play (g : Globals) (address type : Nat) :
    ir_callback g address PLAY_command type =
      { g with key_pressed := true, key := "PLAY", play_pressed := true } := by
  rw [ir_callback_unfold]
  have hk : IrControl.get_key_name PLAY_command = "PLAY" := by decide
  rw [hk, if_pos rfl]
  rfl

theorem digit_name_not_play (d : Nat) (hd : d < 10) :
    IrControl.get_key_name (digit_command d) ≠ "PLAY" := by
  have h : ∀ d, d < 10 → IrControl.get_key_name (digit_command d) ≠ "PLAY" := by decide
  exact h d hd

theorem ir_callback_cups_digit (g : Globals) (address type d : Nat)
    (hstate : g.current_state = STATE_SELECT_CUPS) (hd1 : 1 ≤ d) (hd5 : d ≤ 5) :
    (ir_callback g address (digit_command d) type).current_state = STATE_SCHEDULE_OR_NOW ∧
    (ir_callback g address (digit_command d) type).cups = (d : Int) ∧
    (ir_callback g address (digit_command d) type).prepare_now = g.prepare_now ∧
    (ir_callback g address (digit_command d) type).play_pressed = g.play_pressed := by
  rw [ir_callback_unfold, if_neg (digit_name_not_play d (by omega)), if_pos hstate]
  interval_cases d <;>
    simp [digit_command, IrControl.get_key_name]

theorem ir_callback_now (g : Globals) (address type : Nat)
    (hstate : g.current_state = STATE_SCHEDULE_OR_NOW) :
    ir_callback g address (digit_command 1) type =
      { g with
        key_pressed := true
        key := "1"
        prepare_now := true
        current_state := STATE_BREWING } := by
  have hk : IrControl.get_key_name (digit_command 1) = "1" := by decide
  rw [ir_callback_unfold, hk, if_neg (by decide), if_neg (by rw [hstate]; decide),
    if_pos hstate, if_pos rfl]
  rfl

/-- C12: for every digit `d` from 1 to 5, from the initial globals
(`STATE_INITIAL_SCREEN`, cups 0) the sequence `ir_callback` with PLAY, one
`manage_state` poll, `ir_callback` with the digit `d`, `ir_callback` with the
digit 1 passes through `STATE_SELECT_CUPS` and `STATE_SCHEDULE_OR_NOW` with
cups `d` and ends in `STATE_BREWING` with cups `d` and `prepare_now` set. -/
theorem brew_now_scenario (d : Nat) (hd1 : 1 ≤ d) (hd5 : d ≤ 5)
    (a1 t1 a2 t2 a3 t3 : Nat) (env : Env) :
    initial.current_state = STATE_INITIAL_SCREEN ∧ initial.cups = 0 ∧
    ∃ g2, manage_state (ir_callback initial a1 PLAY_command t1) env = some g2 ∧
      g2.current_state = STATE_SELECT_CUPS ∧
      (ir_callback g2 a2 (digit_command d) t2).current_state = STATE_SCHEDULE_OR_NOW ∧
      (ir_callback g2 a2 (digit_command d) t2).cups = (d : Int) ∧
      (ir_callback (ir_callback g2 a2 (digit_command d) t2) a3 (digit_command 1)
        t3).current_state = STATE_BREWING ∧
      (ir_callback (ir_callback g2 a2 (digit_command d) t2) a3 (digit_command 1)
        t3).cups = (d : Int) ∧
      (ir_callback (ir_callback g2 a2 (digit_command d) t2) a3 (digit_command 1)
        t3).prepare_now = true := by
  refine ⟨rfl, rfl, ?_⟩
  rw [ir_callback_play]
  obtain ⟨g2, hg2⟩ : ∃ g2 : Globals, g2 =
      { initial with
        key_pressed := true
        key := "PLAY"
        display := [Display.display_initial_screen]
        greeting_displayed := true
        current_state := STATE_SELECT_CUPS
        play_pressed := false
        last_displayed_state := STATE_INITIAL_SCREEN } := ⟨_, rfl⟩
  have hstate : g2.current_state = STATE_SELECT_CUPS := by rw [hg2]
  have hpoll : manage_state
      { initial with key_pressed := true, key := "PLAY", play_pressed := true } env =
      some g2 := by rw [hg2]; rfl
  obtain ⟨h1, h2, _, _⟩ := ir_callback_cups_digit g2 a2 t2 d hstate hd1 hd5
  refine ⟨g2, hpoll, hstate, h1, h2, ?_⟩
  rw [ir_callback_now _ a3 t3 h1]
  exact ⟨rfl, h2, rfl⟩

/-- Instance of C12 for the digit 3, the scenario PLAY, 3, 1. -/
theorem brew_now_scenario_witness :
    (1 ≤ 3 ∧ 3 ≤ 5) ∧
    ∃ g2, manage_state (ir_callback initial 0 PLAY_command IrControl.NORMAL)
        (env_of clock_may_12_0730 []) = some g2 ∧
      g2.current_state = STATE_SELECT_CUPS ∧
      (ir_callback g2 0 (digit_command 3) IrControl.NORMAL).current_state =
        STATE_SCHEDULE_OR_NOW ∧
      (ir_callback g2 0 (digit_command 3) IrControl.NORMAL).cups = ((3 : Nat) : Int) ∧
      (ir_callback (ir_callback g2 0 (digit_command 3) IrControl.NORMAL) 0 (digit_command 1)
        IrControl.NORMAL).current_state = STATE_BREWING ∧
      (ir_callback (ir_callback g2 0 (digit_command 3) IrControl.NORMAL) 0 (digit_command 1)
        IrControl.NORMAL).cups = ((3 : Nat) : Int) ∧
      (ir_callback (ir_callback g2 0 (digit_command 3) IrControl.NORMAL) 0 (digit_command 1)
        IrControl.NORMAL).prepare_now = true :=
  ⟨by decide,
    (brew_now_scenario 3 (by decide) (by decide) 0 IrControl.NORMAL 0 IrControl.NORMAL 0
      IrControl.NORMAL (env_of clock_may_12_0730 [])).2.2⟩

/-- C13, as stated, fails for key PLAY: in `STATE_SELECT_CUPS` the key PLAY is
not one of the digits 0 to 5, yet `ir_callback` does not report it as invalid
(nothing is displayed); it sets the pending-PLAY flag. -/
theorem play_not_reported_invalid :
    (in_state STATE_SELECT_CUPS 0).current_state = STATE_SELECT_CUPS ∧
    IrControl.get_key_name PLAY_command ∉ cup_keys ∧
    (ir_callback (in_state STATE_SELECT_CUPS 0) 0 PLAY_command IrControl.NORMAL).display =
      [] ∧
    (ir_callback (in_state STATE_SELECT_CUPS 0) 0 PLAY_command
      IrControl.NORMAL).play_pressed = true := by
  decide

/-- C13, amended: in `STATE_SELECT_CUPS`, for every command whose key is not one
of the digits 0 to 5, `ir_callback` leaves the workflow state and the cup count
unchanged; it reports the key as invalid on the display for every such key
except PLAY, and for PLAY it displays nothing and sets the pending-PLAY flag. -/
theorem select_cups_other_key (g : Globals) (address command type : Nat)
    (hstate : g.current_state = STATE_SELECT_CUPS)
    (hkey : IrControl.get_key_name command ∉ cup_keys) :
    (ir_callback g address command type).current_state = STATE_SELECT_CUPS ∧
    (ir_callback g address command type).cups = g.cups ∧
    (IrControl.get_key_name command ≠ "PLAY" →
      (ir_callback g address command type).display = g.display ++ invalid_key_report ∧
      (ir_callback g address command type).play_pressed = g.play_pressed) ∧
    (IrControl.get_key_name command = "PLAY" →
      (ir_callback g address command type).display = g.display ∧
      (ir_callback g address command type).play_pressed = true) := by
  simp only [cup_keys, List.mem_cons, List.mem_singleton, List.not_mem_nil, or_false,
    not_or] at hkey
  obtain ⟨h0, h1, h2, h3, h4, h5⟩ := hkey
  rw [ir_callback_unfold]
  by_cases hplay : IrControl.get_key_name command = "PLAY"
  · rw [if_pos hplay]
    exact ⟨hstate, rfl, fun h => absurd hplay h, fun _ => ⟨rfl, rfl⟩⟩
  · rw [if_neg hplay, if_pos hstate, if_neg h0, if_neg (by
      simp only [not_or]
      exact ⟨h1, h2, h3, h4, h5⟩)]
    exact ⟨hstate, rfl, fun _ => ⟨rfl, rfl⟩, fun h => absurd h hplay⟩

/-- Instance of the amended C13: key 7 in `STATE_SELECT_CUPS`. -/
theorem select_cups_other_key_witness :
    (in_state STATE_SELECT_CUPS 2).current_state = STATE_SELECT_CUPS ∧
    IrControl.get_key_name (digit_command 7) ∉ cup_keys ∧
    (ir_callback (in_state STATE_SELECT_CUPS 2) 0 (digit_command 7)
      IrControl.NORMAL).current_state = STATE_SELECT_CUPS ∧
    (ir_callback (in_state STATE_SELECT_CUPS 2) 0 (digit_command 7) IrControl.NORMAL).cups =
      (in_state STATE_SELECT_CUPS 2).cups :=
  ⟨by decide, by decide,
    (select_cups_other_key (in_state STATE_SELECT_CUPS 2) 0 (digit_command 7) IrControl.NORMAL
      (by decide) (by decide)).1,
    (select_cups_other_key (in_state STATE_SELECT_CUPS 2) 0 (digit_command 7) IrControl.NORMAL
      (by decide) (by decide)).2.1⟩

/-- C14, as stated (the stored count afterwards is the initial 0), fails: with
3 cups stored by an earlier selection, the digit 0 in `STATE_SELECT_CUPS` leads
to `STATE_INITIAL_SCREEN` and the stored count is still 3. -/
theorem exit_keeps_cups :
    (in_state STATE_SELECT_CUPS 3).current_state = STATE_SELECT_CUPS ∧
    (ir_callback (in_state STATE_SELECT_CUPS 3) 0 (digit_command 0)
      IrControl.NORMAL).current_state = STATE_INITIAL_SCREEN ∧
    (ir_callback (in_state STATE_SELECT_CUPS 3) 0 (digit_command 0) IrControl.NORMAL).cups =
      3 := by
  decide

/-- C14, amended: in `STATE_SELECT_CUPS`, `ir_callback` with the digit 0 yields
`STATE_INITIAL_SCREEN` and leaves the stored cup count as it was (it is 0 only
if no selection was made before). -/
theorem select_cups_exit (g : Globals) (address command type : Nat)
    (hstate : g.current_state = STATE_SELECT_CUPS)
    (hkey : IrControl.get_key_name command = "0") :
    (ir_callback g address command type).current_state = STATE_INITIAL_SCREEN ∧
    (ir_callback g address command type).cups = g.cups := by
  rw [ir_callback_unfold, hkey, if_neg (by decide), if_pos hstate, if_pos rfl]
  exact ⟨rfl, rfl⟩

/-- Instance of the amended C14 at the initial globals moved to
`STATE_SELECT_CUPS`. -/
theorem select_cups_exit_witness :
    (in_state STATE_SELECT_CUPS 0).current_state = STATE_SELECT_CUPS ∧
    IrControl.get_key_name (digit_command 0) = "0" ∧
    (ir_callback (in_state STATE_SELECT_CUPS 0) 0 (digit_command 0)
      IrControl.NORMAL).current_state = STATE_INITIAL_SCREEN ∧
    (ir_callback (in_state STATE_SELECT_CUPS 0) 0 (digit_command 0) IrControl.NORMAL).cups =
      (in_state STATE_SELECT_CUPS 0).cups :=
  ⟨by decide, by decide,
    select_cups_exit (in_state STATE_SELECT_CUPS 0) 0 (digit_command 0) IrControl.NORMAL
      (by decide) (by decide)⟩

/-! ## Lemmas on `configure_schedule` on the key buffer -/

theorem ir_callback_scheduling (g : Globals) (address command type : Nat)
    (hs : g.current_state = STATE_SCHEDULING) :
    (ir_callback g address command type).current_state = STATE_SCHEDULING ∧
    (ir_callback g address command type).cups = g.cups ∧
    (ir_callback g address command type).prepare_now = g.prepare_now := by
  rw [ir_callback_unfold]
  by_cases hplay : IrControl.get_key_name command = "PLAY"
  · rw [if_pos hplay]
    exact ⟨hs, rfl, rfl⟩
  · rw [if_neg hplay, if_neg (by rw [hs]; decide), if_neg (by rw [hs]; decide)]
    exact ⟨hs, rfl, rfl⟩

theorem deliver_preserves (P : Globals → Prop)
    (hP : ∀ g address command type, P g → P (ir_callback g address command type)) :
    ∀ (frames : List IrControl.Call) (g : Globals), P g → P (deliver g frames) := by
  intro frames
  induction frames with
  | nil => intro g h; exact h
  | cons c rest ih =>
    intro g h
    exact ih _ (hP g c.address c.command c.type h)

theorem poll_key_preserves (P : Globals → Prop)
    (hP : ∀ g address command type, P g → P (ir_callback g address command type))
    (cond : String → Bool) :
    ∀ (batches : List (List IrControl.Call)) (g : Globals), P g →
      P (poll_key cond batches g).1 := by
  intro batches
  induction batches with
  | nil => intro g h; exact h
  | cons batch rest ih =>
    intro g h
    simp only [poll_key]
    split
    · exact h
    · exact ih _ (deliver_preserves P hP batch g h)

theorem observe_pass_preserves (P : Globals → Prop)
    (hP : ∀ g address command type, P g → P (ir_callback g address command type))
    (g : Globals) (script : PassScript) (h : P g) : P (observe_pass g script).1 := by
  have hw : ∀ (cond : String → Bool) (w : KeyWait) (x : Globals), P x →
      P (poll_key cond w.during (deliver x w.before)).1 := by
    intro cond w x hx
    exact poll_key_preserves P hP cond _ _ (deliver_preserves P hP _ _ hx)
  simp only [observe_pass, observe_digit, observe_day]
  exact hw _ _ _ (hw _ _ _ (hw _ _ _ (hw _ _ _ (hw _ _ _ h))))

theorem invalid_wait_preserves (P : Globals → Prop)
    (hP : ∀ g address command type, P g → P (ir_callback g address command type))
    (g : Globals) (w : KeyWait) (h : P g) : P (invalid_wait g w).1 :=
  poll_key_preserves P hP _ _ _ (deliver_preserves P hP _ _ h)

/-- The two outcomes of a pass of `configure_schedule` whose validation
fails. -/
theorem configure_schedule_run_invalid (st0 st3 : ScheduledTime) (script : PassScript)
    (rest : List PassScript) (g : Globals)
    (hf : configure_fields st0 (observe_pass g script).2 = some st3)
    (hval : validation st3 script.rtc_data = false) :
    configure_schedule_run st0 (script :: rest) g =
      if (invalid_wait (observe_pass g script).1 script.after).2 then
        configure_schedule_run st3 rest (invalid_wait (observe_pass g script).1 script.after).1
      else none := by
  simp only [configure_schedule_run, hf, hval]
  simp

theorem configure_schedule_run_preserves (P : Globals → Prop)
    (hP : ∀ g address command type, P g → P (ir_callback g address command type)) :
    ∀ (scripts : List PassScript) (st0 : ScheduledTime) (g : Globals)
      (r : Globals × ScheduledTime), P g → configure_schedule_run st0 scripts g = some r →
      P r.1 := by
  intro scripts
  induction scripts with
  | nil => intro st0 g r _ h; simp [configure_schedule_run] at h
  | cons script rest ih =>
    intro st0 g r hg h
    cases hf : configure_fields st0 (observe_pass g script).2 with
    | none => simp [configure_schedule_run, hf] at h
    | some st3 =>
      have hobs := observe_pass_preserves P hP g script hg
      by_cases hv : validation st3 script.rtc_data = true
      · simp only [configure_schedule_run, hf, hv, if_true, Option.some.injEq] at h
        rw [← h]
        exact deliver_preserves P hP _ _ hobs
      · have hv2 : validation st3 script.rtc_data = false := by simpa using hv
        rw [configure_schedule_run_invalid st0 st3 script rest g hf hv2] at h
        split at h
        · exact ih st3 _ r (invalid_wait_preserves P hP _ _ hobs) h
        · simp at h

/-- The case `STATE_SCHEDULING` of `manage_state`: the poll returns when
`configure_schedule` does, with the branch on the valid flag applied to the
globals at the `return`. -/
theorem scheduling_poll (g g1 : Globals) (env : Env)
    (hs : g.current_state = STATE_SCHEDULING) (hret : manage_state g env = some g1) :
    ∃ r : Globals × ScheduledTime,
      configure_schedule_run ⟨0, 0, 0, 0, false⟩ env.config g = some r ∧
        g1 = finish_scheduling r.1 r.2 := by
  simp only [manage_state, hs] at hret
  cases hcfg : configure_schedule_run ⟨0, 0, 0, 0, false⟩ env.config g with
  | none => rw [hcfg] at hret; simp at hret
  | some r =>
    rw [hcfg] at hret
    simp only [Option.some.injEq] at hret
    exact ⟨r, rfl, hret.symm⟩

/-- C16: the validation condition of `configure_schedule` holds if and only if
the target `(month, day, hour, minutes)` is strictly greater than the current
`(month, day, hour, minute)` in lexicographic order, month first; in particular
it fails when the two are equal. -/
theorem schedule_in_future_iff_lex (st : ScheduledTime)
    (current_day current_month current_hour current_minute : Nat) :
    (schedule_in_future st current_day current_month current_hour current_minute = true ↔
      toLex (current_month, toLex (current_day, toLex (current_hour, current_minute))) <
        toLex (st.month, toLex (st.day, toLex (st.hour, st.minutes)))) ∧
    schedule_in_future st st.day st.month st.hour st.minutes = false := by
  constructor
  · simp only [schedule_in_future, decide_eq_true_eq, Prod.Lex.lt_iff, gt_iff_lt]
    constructor
    · rintro (h | ⟨h1, h2⟩ | ⟨h1, h2, h3 | ⟨h3, h4⟩⟩)
      · exact Or.inl h
      · exact Or.inr ⟨h1.symm, Or.inl h2⟩
      · exact Or.inr ⟨h1.symm, Or.inr ⟨h2.symm, Or.inl h3⟩⟩
      · exact Or.inr ⟨h1.symm, Or.inr ⟨h2.symm, Or.inr ⟨h3.symm, h4⟩⟩⟩
    · rintro (h | ⟨h1, h2 | ⟨h2, h3 | ⟨h3, h4⟩⟩⟩)
      · exact Or.inl h
      · exact Or.inr (Or.inl ⟨h1.symm, h2⟩)
      · exact Or.inr (Or.inr ⟨h1.symm, h2.symm, Or.inl h3⟩)
      · exact Or.inr (Or.inr ⟨h1.symm, h2.symm, Or.inr ⟨h3.symm, h4⟩⟩)
  · simp [schedule_in_future]

/-- C18: in `STATE_WAITING`, a `manage_state` poll moves to `STATE_BREWING`,
changing nothing else, if and only if the current day, month, hour and minute
decoded from the clock all equal those of the target; for every other reading
the poll changes nothing: state, target and cup count stay as they were. -/
theorem waiting_poll (g : Globals) (env : Env) (hstate : g.current_state = STATE_WAITING) :
    ((from_bcd (env.rtc_data.getD 4 0) = g.scheduled_time.day ∧
        from_bcd (env.rtc_data.getD 5 0) = g.scheduled_time.month ∧
        from_bcd (env.rtc_data.getD 2 0) = g.scheduled_time.hour ∧
        from_bcd (env.rtc_data.getD 1 0) = g.scheduled_time.minutes) →
      manage_state g env = some { g with current_state := STATE_BREWING }) ∧
    (¬ (from_bcd (env.rtc_data.getD 4 0) = g.scheduled_time.day ∧
        from_bcd (env.rtc_data.getD 5 0) = g.scheduled_time.month ∧
        from_bcd (env.rtc_data.getD 2 0) = g.scheduled_time.hour ∧
        from_bcd (env.rtc_data.getD 1 0) = g.scheduled_time.minutes) →
      manage_state g env = some g) ∧
    ((∃ g2, manage_state g env = some g2 ∧ g2.current_state = STATE_BREWING) ↔
      (from_bcd (env.rtc_data.getD 4 0) = g.scheduled_time.day ∧
        from_bcd (env.rtc_data.getD 5 0) = g.scheduled_time.month ∧
        from_bcd (env.rtc_data.getD 2 0) = g.scheduled_time.hour ∧
        from_bcd (env.rtc_data.getD 1 0) = g.scheduled_time.minutes)) := by
  have hyes : (from_bcd (env.rtc_data.getD 4 0) = g.scheduled_time.day ∧
        from_bcd (env.rtc_data.getD 5 0) = g.scheduled_time.month ∧
        from_bcd (env.rtc_data.getD 2 0) = g.scheduled_time.hour ∧
        from_bcd (env.rtc_data.getD 1 0) = g.scheduled_time.minutes) →
      manage_state g env = some { g with current_state := STATE_BREWING } := by
    intro h
    simp only [manage_state, hstate]
    rw [if_pos h]
  have hno : ¬ (from_bcd (env.rtc_data.getD 4 0) = g.scheduled_time.day ∧
        from_bcd (env.rtc_data.getD 5 0) = g.scheduled_time.month ∧
        from_bcd (env.rtc_data.getD 2 0) = g.scheduled_time.hour ∧
        from_bcd (env.rtc_data.getD 1 0) = g.scheduled_time.minutes) →
      manage_state g env = some g := by
    intro h
    simp only [manage_state, hstate]
    rw [if_neg h]
  refine ⟨hyes, hno, ?_, ?_⟩
  · rintro ⟨g2, hg2, hb⟩
    by_contra hcon
    rw [hno hcon] at hg2
    cases hg2
    rw [hstate] at hb
    cases hb
  · intro h
    exact ⟨_, hyes h, rfl⟩

/-- Instance of C18: the target 12 May 07:30 polled at 07:31 stays in
`STATE_WAITING`. -/
theorem waiting_poll_witness :
    ({ in_state STATE_WAITING 2 with scheduled_time := ⟨12, 5, 7, 30, true⟩ } :
      Globals).current_state = STATE_WAITING ∧
    manage_state { in_state STATE_WAITING 2 with scheduled_time := ⟨12, 5, 7, 30, true⟩ }
        (env_of clock_may_12_0730 []) =
      some
        { in_state STATE_WAITING 2 with
          scheduled_time := ⟨12, 5, 7, 30, true⟩
          current_state := STATE_BREWING } ∧
    manage_state { in_state STATE_WAITING 2 with scheduled_time := ⟨12, 5, 7, 30, true⟩ }
        (env_of clock_may_12_0731 []) =
      some { in_state STATE_WAITING 2 with scheduled_time := ⟨12, 5, 7, 30, true⟩ } :=
  ⟨by decide,
    (waiting_poll { in_state STATE_WAITING 2 with scheduled_time := ⟨12, 5, 7, 30, true⟩ }
      (env_of clock_may_12_0730 []) (by decide)).1 (by decide),
    (waiting_poll { in_state STATE_WAITING 2 with scheduled_time := ⟨12, 5, 7, 30, true⟩ }
      (env_of clock_may_12_0731 []) (by decide)).2.1 (by decide)⟩

theorem wait_for_play_pressed (refill_wait : List (List IrControl.Call)) (g : Globals)
    (h : g.play_pressed = true) : wait_for_play refill_wait g = some g := by
  cases refill_wait with
  | nil => simp [wait_for_play, h]
  | cons batch rest => simp [wait_for_play, h]

/-- C20: `check_simulated_resources` returns at once with the globals unchanged
(water, beans and pending-PLAY flag included) when neither the water nor the
beans are below the need of the requested cups; when one of them is, and the
refill is confirmed (the wait for PLAY ends), it returns with `water_ml = 1000`
and `coffee_beans_g = 250`; a PLAY frame during the first wait interval, or a
flag already set, confirms the refill. -/
theorem check_simulated_resources_refill (g : Globals) (cups water_per_cup : Int)
    (refill_wait : List (List IrControl.Call)) :
    (¬ (g.water_ml < cups * water_per_cup ∨ g.coffee_beans_g < cups * 10) →
      check_simulated_resources g cups water_per_cup refill_wait = some g) ∧
    ((g.water_ml < cups * water_per_cup ∨ g.coffee_beans_g < cups * 10) →
      ∀ g1, wait_for_play refill_wait g = some g1 →
        ∃ g2, check_simulated_resources g cups water_per_cup refill_wait = some g2 ∧
          g2.water_ml = 1000 ∧ g2.coffee_beans_g = 250) ∧
    (∀ (address type : Nat) (rest : List (List IrControl.Call)),
      ∃ g1, wait_for_play ([⟨address, PLAY_command, type⟩] :: rest) g = some g1) ∧
    (g.play_pressed = true → wait_for_play refill_wait g = some g) := by
  refine ⟨?_, ?_, ?_, ?_⟩
  · intro h
    simp only [not_or] at h
    simp [check_simulated_resources, h.1, h.2]
  · intro h g1 hwait
    have hneed : (decide (g.water_ml < cups * water_per_cup) ||
        decide (g.coffee_beans_g < cups * 10)) = true := by
      simpa using h
    refine ⟨{ g1 with coffee_beans_g := 250, water_ml := 1000, play_pressed := false },
      ?_, rfl, rfl⟩
    simp only [check_simulated_resources, hneed, if_true, hwait]
  · intro address type rest
    by_cases hp : g.play_pressed = true
    · exact ⟨g, wait_for_play_pressed _ g hp⟩
    · refine ⟨ir_callback g address PLAY_command type, ?_⟩
      simp only [wait_for_play, hp, if_false, deliver, List.foldl]
      apply wait_for_play_pressed
      rw [ir_callback_play]
  · exact wait_for_play_pressed refill_wait g

/-- Instance of C20: 40 ml of water left for one cup of 50 ml, PLAY pressed
during the wait. -/
theorem check_simulated_resources_refill_witness :
    ({ initial with water_ml := 40 } : Globals).water_ml < 1 * 50 ∧
    ∃ g2, check_simulated_resources { initial with water_ml := 40 } 1 50
        [[⟨0, PLAY_command, IrControl.NORMAL⟩]] = some g2 ∧
      g2.water_ml = 1000 ∧ g2.coffee_beans_g = 250 :=
  ⟨by decide,
    (check_simulated_resources_refill { initial with water_ml := 40 } 1 50
      [[⟨0, PLAY_command, IrControl.NORMAL⟩]]).2.1 (Or.inl (by decide))
      (ir_callback { initial with water_ml := 40 } 0 PLAY_command IrControl.NORMAL)
      (by decide)⟩

/-! ## Date arithmetic and digit entry: the properties -/

/-- C21: when the clock reads 31 December and the schedule is set for tomorrow,
`increment_date` yields day 1, month 1 (of the following year) and the
validation condition is false for every target hour and minute and every
current hour and minute, although that date is later: `configure_schedule`
does not accept the pass. -/
theorem year_rollover_rejected (st0 : ScheduledTime) (pass : ConfigPass)
    (rest : List ConfigPass) (hchoice : pass.choice = DayChoice.tomorrow)
    (hday : from_bcd (pass.date_rtc_data.getD 4 0) = 31)
    (hmonth : from_bcd (pass.date_rtc_data.getD 5 0) = 12)
    (hday2 : from_bcd (pass.rtc_data.getD 4 0) = 31)
    (hmonth2 : from_bcd (pass.rtc_data.getD 5 0) = 12) :
    increment_date 31 12 (from_bcd (pass.date_rtc_data.getD 6 0)) =
      some (1, 1, (from_bcd (pass.date_rtc_data.getD 6 0) + 1) % 256) ∧
    (∀ (hour minutes current_hour current_minute : Nat) (valid : Bool),
      schedule_in_future ⟨1, 1, hour, minutes, valid⟩ 31 12 current_hour current_minute =
        false) ∧
    ∃ st3, configure_fields st0 pass = some st3 ∧ st3.day = 1 ∧ st3.month = 1 ∧
      validation st3 pass.rtc_data = false ∧
      configure_schedule_from st0 (pass :: rest) = configure_schedule_from st3 rest := by
  have hinc : ∀ y, increment_date 31 12 y = some (1, 1, (y + 1) % 256) := by
    intro y
    simp [increment_date, days_in_month]
  have hfut : ∀ (hour minutes current_hour current_minute : Nat) (valid : Bool),
      schedule_in_future ⟨1, 1, hour, minutes, valid⟩ 31 12 current_hour current_minute =
        false := by
    intro hour minutes current_hour current_minute valid
    simp [schedule_in_future]
  have hfields : configure_fields st0 pass =
      some
        { st0 with
          day := 1
          month := 1
          hour := configure_hour (read_digit pass.hour_first) (read_digit pass.hour_second)
          minutes :=
            configure_minutes (read_digit pass.minutes_first)
              (read_digit pass.minutes_second) } := by
    simp only [configure_fields, configure_day, hchoice, hday, hmonth, hinc]
  refine ⟨hinc _, hfut, _, hfields, rfl, rfl, ?_, ?_⟩
  · simp only [validation, hday2, hmonth2]
    exact hfut _ _ _ _ _
  · have hval : validation
        { st0 with
          day := 1
          month := 1
          hour := configure_hour (read_digit pass.hour_first) (read_digit pass.hour_second)
          minutes :=
            configure_minutes (read_digit pass.minutes_first)
              (read_digit pass.minutes_second) } pass.rtc_data = false := by
      simp only [validation, hday2, hmonth2]
      exact hfut _ _ _ _ _
    simp only [configure_schedule_from, hfields, hval]
    simp

/-- Instance of C21: on 31 December at 23:50 a schedule for tomorrow 00:05 is
not accepted. -/
theorem year_rollover_rejected_witness :
    rollover_pass.choice = DayChoice.tomorrow ∧
    from_bcd (rollover_pass.date_rtc_data.getD 4 0) = 31 ∧
    from_bcd (rollover_pass.date_rtc_data.getD 5 0) = 12 ∧
    ∃ st3, configure_fields ⟨0, 0, 0, 0, false⟩ rollover_pass = some st3 ∧ st3.day = 1 ∧
      st3.month = 1 ∧ validation st3 rollover_pass.rtc_data = false ∧
      configure_schedule_from ⟨0, 0, 0, 0, false⟩ (rollover_pass :: []) =
        configure_schedule_from st3 [] :=
  ⟨by decide, by decide, by decide,
    (year_rollover_rejected ⟨0, 0, 0, 0, false⟩ rollover_pass [] (by decide) (by decide)
      (by decide) (by decide) (by decide)).2.2⟩

/-- C22, as stated, fails: when the deadline elapses on the second digit after
the first digit 2, `configure_hour` sets the hour to 20, and when it elapses on
the first digit and the second digit is 5 the hour is 5: plausible non-zero
hours, neither 0 nor outside 0 to 23. -/
theorem hour_after_timeout_plausible :
    read_digit none = 0xFF ∧
    configure_hour (read_digit (some 2)) (read_digit none) = 20 ∧
    configure_hour (read_digit none) (read_digit (some 5)) = 5 := by
  decide

/-- C22, amended: a digit of the hour entry whose deadline elapses is replaced
by 0 where `configure_hour` tests it: the first digit always, the second digit
after the first digit 2. So with the first digit missed the hour is the value
of the second digit, with the second digit missed after a 2 the hour is 20, and
with the second digit missed after a first digit that is 0, missed or above 2
the hour is 255, outside 0 to 23. -/
theorem hour_after_timeout :
    (∀ d : Fin 10, configure_hour (read_digit none) (read_digit (some d)) = d.val) ∧
    configure_hour (read_digit (some 2)) (read_digit none) = 20 ∧
    configure_hour (read_digit (some 0)) (read_digit none) = 255 ∧
    configure_hour (read_digit none) (read_digit none) = 255 ∧
    (∀ f : Fin 10, 2 < f.val →
      configure_hour (read_digit (some f)) (read_digit none) = 255) := by
  decide

theorem increment_date_in_bounds (day month year : Nat) (h1 : 1 ≤ month)
    (h12 : month ≤ 12) :
    month - 1 < days_in_month.length ∧ increment_date day month year ≠ none := by
  constructor
  · simp [days_in_month]
    omega
  · unfold increment_date
    rw [if_pos ⟨h1, h12⟩]
    simp only
    split_ifs <;> simp

/-- C28: for every date with two-digit year `yy` from 0 to 99, month from 1 to
12 and day from 1 to the length of that month in the year `2000 + yy`,
`increment_date` reads `days_in_month` inside the table and yields the next
day of the Gregorian calendar: the next day of the month, the first day of the
next month at a month end, 1 January of `yy + 1` after 31 December, February
having 29 days exactly in leap years. -/
theorem increment_date_next_day (day month yy : Nat) (hyy : yy ≤ 99)
    (hm1 : 1 ≤ month) (hm12 : month ≤ 12) (hd1 : 1 ≤ day)
    (hd : day ≤ gregorian_month_length (2000 + yy) month) :
    month - 1 < days_in_month.length ∧
    increment_date day month yy = some (gregorian_next_day day month yy) ∧
    (day < gregorian_month_length (2000 + yy) month →
      increment_date day month yy = some (day + 1, month, yy)) ∧
    (day = gregorian_month_length (2000 + yy) month → month < 12 →
      increment_date day month yy = some (1, month + 1, yy)) ∧
    (day = 31 → month = 12 → increment_date day month yy = some (1, 1, yy + 1)) ∧
    (gregorian_month_length (2000 + yy) 2 = 29 ↔ gregorian_leap (2000 + yy) = true) ∧
    (increment_date 28 2 yy = some (29, 2, yy) ↔ gregorian_leap (2000 + yy) = true) := by
  have hleap : ((yy % 4 = 0 ∧ yy % 100 ≠ 0) ∨ yy % 400 = 0) ↔
      (((2000 + yy) % 4 = 0 ∧ (2000 + yy) % 100 ≠ 0) ∨ (2000 + yy) % 400 = 0) := by
    omega
  have hlen : (if month = 2 ∧ ((yy % 4 = 0 ∧ yy % 100 ≠ 0) ∨ yy % 400 = 0) then 29
      else days_in_month.getD (month - 1) 0) = gregorian_month_length (2000 + yy) month := by
    unfold gregorian_month_length gregorian_leap
    interval_cases month <;> simp [days_in_month, hleap]
  have hday : day ≤ 31 := by
    have : gregorian_month_length (2000 + yy) month ≤ 31 := by
      unfold gregorian_month_length
      split_ifs <;> omega
    omega
  have hmain : increment_date day month yy = some (gregorian_next_day day month yy) := by
    unfold increment_date gregorian_next_day
    rw [if_pos ⟨hm1, hm12⟩]
    simp only [hlen]
    by_cases h1 : day < gregorian_month_length (2000 + yy) month
    · rw [if_pos h1, if_pos h1]
      have : (day + 1) % 256 = day + 1 := by omega
      rw [this]
    · rw [if_neg h1, if_neg h1]
      by_cases h2 : month < 12
      · rw [if_pos h2, if_pos h2]
        have : (month + 1) % 256 = month + 1 := by omega
        rw [this]
      · rw [if_neg h2, if_neg h2]
        have : (yy + 1) % 256 = yy + 1 := by omega
        rw [this]
  refine ⟨(increment_date_in_bounds day month yy hm1 hm12).1, hmain, ?_, ?_, ?_, ?_, ?_⟩
  · intro h
    rw [hmain]
    unfold gregorian_next_day
    rw [if_pos h]
  · intro h h2
    rw [hmain]
    unfold gregorian_next_day
    rw [if_neg (by omega), if_pos h2]
  · intro h h2
    rw [hmain]
    subst h2
    unfold gregorian_next_day
    have : gregorian_month_length (2000 + yy) 12 = 31 := by
      simp [gregorian_month_length]
    rw [if_neg (by omega), if_neg (by omega)]
  · unfold gregorian_month_length
    cases hl : gregorian_leap (2000 + yy) <;> simp
  · unfold increment_date gregorian_leap
    by_cases hl : (yy % 4 = 0 ∧ yy % 100 ≠ 0) ∨ yy % 400 = 0
    · have hl2 := hleap.1 hl
      simp [days_in_month, hl, hl2]
    · have hl2 : ¬ (((2000 + yy) % 4 = 0 ∧ (2000 + yy) % 100 ≠ 0) ∨
          (2000 + yy) % 400 = 0) := fun h => hl (hleap.2 h)
      simp [days_in_month, hl, hl2]

/-- Instance of C28: 28 February 2024 is followed by 29 February, and
29 February by 1 March. -/
theorem increment_date_next_day_witness :
    (24 ≤ 99 ∧ 1 ≤ 2 ∧ 2 ≤ 12 ∧ 1 ≤ 29 ∧ 29 ≤ gregorian_month_length (2000 + 24) 2) ∧
    increment_date 28 2 24 = some (29, 2, 24) ∧
    increment_date 29 2 24 = some (gregorian_next_day 29 2 24) ∧
    gregorian_next_day 29 2 24 = (1, 3, 24) :=
  ⟨by decide, by decide,
    (increment_date_next_day 29 2 24 (by decide) (by decide) (by decide) (by decide)
      (by decide)).2.1, by decide⟩

/-! ## Frame kind, latched PLAY and cup count: the properties -/

/-- C24: `ir_callback` ignores the frame kind: with `REPEAT` it yields the same
globals as with `NORMAL`, for all globals, addresses and commands; so, from
`STATE_SELECT_CUPS`, a Normal frame of key 1 followed by its Repeat ends in
`STATE_BREWING` with cups 1 and `prepare_now` set. -/
theorem frame_kind_ignored (g : Globals) (a1 a2 : Nat)
    (hstate : g.current_state = STATE_SELECT_CUPS) :
    (∀ (g0 : Globals) (address command : Nat),
      ir_callback g0 address command IrControl.REPEAT =
        ir_callback g0 address command IrControl.NORMAL) ∧
    (ir_callback (ir_callback g a1 (digit_command 1) IrControl.NORMAL) a2 (digit_command 1)
      IrControl.REPEAT).current_state = STATE_BREWING ∧
    (ir_callback (ir_callback g a1 (digit_command 1) IrControl.NORMAL) a2 (digit_command 1)
      IrControl.REPEAT).cups = 1 ∧
    (ir_callback (ir_callback g a1 (digit_command 1) IrControl.NORMAL) a2 (digit_command 1)
      IrControl.REPEAT).prepare_now = true := by
  obtain ⟨h1, h2, _, _⟩ :=
    ir_callback_cups_digit g a1 IrControl.NORMAL 1 hstate (by decide) (by decide)
  refine ⟨fun _ _ _ => rfl, ?_⟩
  rw [ir_callback_now _ a2 IrControl.REPEAT h1]
  exact ⟨rfl, by simpa using h2, rfl⟩

/-- Instance of C24 at the initial globals moved to `STATE_SELECT_CUPS`. -/
theorem frame_kind_ignored_witness :
    (in_state STATE_SELECT_CUPS 0).current_state = STATE_SELECT_CUPS ∧
    (ir_callback (ir_callback (in_state STATE_SELECT_CUPS 0) 0 (digit_command 1)
      IrControl.NORMAL) 0 (digit_command 1) IrControl.REPEAT).current_state =
        STATE_BREWING ∧
    (ir_callback (ir_callback (in_state STATE_SELECT_CUPS 0) 0 (digit_command 1)
      IrControl.NORMAL) 0 (digit_command 1) IrControl.REPEAT).cups = 1 :=
  ⟨by decide,
    (frame_kind_ignored (in_state STATE_SELECT_CUPS 0) 0 0 (by decide)).2.1,
    (frame_kind_ignored (in_state STATE_SELECT_CUPS 0) 0 0 (by decide)).2.2.1⟩

/-- C25: `ir_callback` with PLAY sets the pending-PLAY flag and leaves the
workflow state unchanged, in every state; a `manage_state` poll in
`STATE_SELECT_CUPS`, `STATE_SCHEDULE_OR_NOW` or `STATE_WAITING` returns with the
flag unchanged; so from `STATE_SELECT_CUPS` the events PLAY, digit 0 and one
poll leave the machine in `STATE_SELECT_CUPS`. -/
theorem play_latched (g : Globals) (a1 t1 a2 t2 : Nat) (env : Env)
    (hstate : g.current_state = STATE_SELECT_CUPS) :
    (∀ (g0 : Globals) (address type : Nat),
      (ir_callback g0 address PLAY_command type).play_pressed = true ∧
      (ir_callback g0 address PLAY_command type).current_state = g0.current_state) ∧
    (∀ (g0 : Globals) (env0 : Env),
      g0.current_state = STATE_SELECT_CUPS ∨ g0.current_state = STATE_SCHEDULE_OR_NOW ∨
        g0.current_state = STATE_WAITING →
      ∃ g1, manage_state g0 env0 = some g1 ∧ g1.play_pressed = g0.play_pressed) ∧
    (ir_callback (ir_callback g a1 PLAY_command t1) a2 (digit_command 0)
      t2).current_state = STATE_INITIAL_SCREEN ∧
    ∃ g3, manage_state (ir_callback (ir_callback g a1 PLAY_command t1) a2 (digit_command 0)
        t2) env = some g3 ∧
      g3.current_state = STATE_SELECT_CUPS := by
  have hk0 : IrControl.get_key_name (digit_command 0) = "0" := by decide
  have hcb : ir_callback (ir_callback g a1 PLAY_command t1) a2 (digit_command 0) t2 =
      { g with
        key_pressed := true
        key := "0"
        play_pressed := true
        display := g.display ++ [Display.lcd_clear, Display.display_initial_screen]
        current_state := STATE_INITIAL_SCREEN } := by
    rw [ir_callback_play, ir_callback_unfold, hk0, if_neg (by decide), if_pos hstate,
      if_pos rfl]
    rfl
  refine ⟨?_, ?_, ?_, ?_⟩
  · intro g0 address type
    rw [ir_callback_play]
    exact ⟨rfl, rfl⟩
  · intro g0 env0 h
    rcases h with h | h | h
    · simp only [manage_state, h]
      split
      · exact ⟨_, rfl, rfl⟩
      · exact ⟨_, rfl, rfl⟩
    · simp only [manage_state, h]
      split
      · exact ⟨_, rfl, rfl⟩
      · exact ⟨_, rfl, rfl⟩
    · simp only [manage_state, h]
      split
      · exact ⟨_, rfl, rfl⟩
      · exact ⟨_, rfl, rfl⟩
  · rw [hcb]
  · rw [hcb]
    simp only [manage_state]
    split <;> exact ⟨_, rfl, rfl⟩

/-- Instance of C25 at the initial globals moved to `STATE_SELECT_CUPS`. -/
theorem play_latched_witness :
    (in_state STATE_SELECT_CUPS 0).current_state = STATE_SELECT_CUPS ∧
    ∃ g3, manage_state (ir_callback (ir_callback (in_state STATE_SELECT_CUPS 0) 0
        PLAY_command IrControl.NORMAL) 0 (digit_command 0) IrControl.NORMAL)
        (env_of clock_may_12_0730 []) = some g3 ∧
      g3.current_state = STATE_SELECT_CUPS :=
  ⟨by decide,
    (play_latched (in_state STATE_SELECT_CUPS 0) 0 IrControl.NORMAL 0 IrControl.NORMAL
      (env_of clock_may_12_0730 []) (by decide)).2.2.2⟩

theorem cups_in_range_key (g : Globals) (address command type : Nat)
    (h : cups_in_range g) : cups_in_range (ir_callback g address command type) := by
  rw [ir_callback_unfold]
  unfold cups_in_range at h ⊢
  split_ifs with hplay hsel h0 h15 hson h1 h2
  · exact h
  · intro hc
    simp [carries_cups] at hc
  · intro _
    rcases h15 with hk | hk | hk | hk | hk <;> simp only [hk] <;> decide
  · intro hc
    simp [hsel, carries_cups] at hc
  · intro _
    exact h (by rw [hson]; rfl)
  · intro _
    exact h (by rw [hson]; rfl)
  · exact h
  · exact h

theorem cups_in_range_finish (g : Globals) (st : ScheduledTime)
    (hstate : g.current_state = STATE_SCHEDULING) (h : cups_in_range g) :
    cups_in_range (finish_scheduling g st) := by
  unfold cups_in_range at h ⊢
  unfold finish_scheduling
  split
  · intro _
    exact h (by rw [hstate]; rfl)
  · intro hc
    simp [carries_cups] at hc

theorem prepare_coffee_state (g g1 : Globals) (cups : Int) (water_raw : Nat)
    (refill_wait : List (List IrControl.Call))
    (hret : prepare_coffee g cups water_raw refill_wait = some g1) :
    g1.current_state = STATE_INITIAL_SCREEN := by
  unfold prepare_coffee at hret
  simp only at hret
  cases hc : check_simulated_resources g cups (read_water_quantity water_raw) refill_wait with
  | none => rw [hc] at hret; simp at hret
  | some g2 =>
    rw [hc] at hret
    simp only [Option.some.injEq] at hret
    rw [← hret]

theorem initial_poll_state (g g1 : Globals) (env : Env)
    (hs : g.current_state = STATE_INITIAL_SCREEN) (hret : manage_state g env = some g1) :
    g1.current_state = STATE_INITIAL_SCREEN ∨ g1.current_state = STATE_SELECT_CUPS := by
  simp only [manage_state, hs] at hret
  split_ifs at hret <;> simp only [Option.some.injEq] at hret <;> rw [← hret] <;> simp [hs]

theorem cups_in_range_poll (g g1 : Globals) (env : Env) (h : cups_in_range g)
    (hret : manage_state g env = some g1) : cups_in_range g1 := by
  unfold cups_in_range at h ⊢
  cases hs : g.current_state with
  | STATE_INITIAL_SCREEN =>
    intro hc
    rcases initial_poll_state g g1 env hs hret with h1 | h1 <;> rw [h1] at hc <;>
      simp [carries_cups] at hc
  | STATE_SELECT_CUPS =>
    simp only [manage_state, hs] at hret
    intro hc
    split at hret <;> simp only [Option.some.injEq] at hret <;> rw [← hret] at hc <;>
      simp [carries_cups, hs] at hc
  | STATE_SCHEDULE_OR_NOW =>
    simp only [manage_state, hs] at hret
    intro _
    split at hret <;> simp only [Option.some.injEq] at hret <;> rw [← hret] <;>
      exact h (by rw [hs]; rfl)
  | STATE_BREWING =>
    simp only [manage_state, hs] at hret
    intro hc
    rw [prepare_coffee_state _ _ _ _ _ hret] at hc
    simp [carries_cups] at hc
  | STATE_SCHEDULING =>
    obtain ⟨r, hrun, hg1⟩ := scheduling_poll g g1 env hs hret
    have hquiet := configure_schedule_run_preserves
      (fun x => x.current_state = STATE_SCHEDULING ∧ x.cups = g.cups)
      (fun x a c t hx => by
        obtain ⟨h1, h2, _⟩ := ir_callback_scheduling x a c t hx.1
        exact ⟨h1, h2.trans hx.2⟩)
      env.config ⟨0, 0, 0, 0, false⟩ g r ⟨hs, rfl⟩ hrun
    rw [hg1]
    apply cups_in_range_finish r.1 r.2 hquiet.1
    intro _
    rw [hquiet.2]
    exact h (by rw [hs]; rfl)
  | STATE_WAITING =>
    simp only [manage_state, hs] at hret
    intro _
    split at hret <;> simp only [Option.some.injEq] at hret <;> rw [← hret] <;>
      exact h (by rw [hs]; rfl)

theorem cups_in_range_step (g g1 : Globals) (e : Event) (h : cups_in_range g)
    (hret : step g e = some g1) : cups_in_range g1 := by
  cases e with
  | key address command type =>
    simp only [step, Option.some.injEq] at hret
    rw [← hret]
    exact cups_in_range_key g address command type h
  | poll env => exact cups_in_range_poll g g1 env h hret
  | poll_configured env st =>
    simp only [step] at hret
    split at hret
    · rename_i hs
      simp only [Option.some.injEq] at hret
      rw [← hret]
      exact cups_in_range_finish g st hs h
    · exact cups_in_range_poll g g1 env h hret
  | prepared water_raw refill_wait =>
    simp only [step] at hret
    intro hc
    rw [prepare_coffee_state _ _ _ _ _ hret] at hc
    simp [carries_cups] at hc

/-- C26: in every state reached from the initial globals
(`STATE_INITIAL_SCREEN`, cups 0) by a sequence of `ir_callback` calls (any
address, command and kind), `manage_state` polls (any clock bytes, any value
returned by `configure_schedule`) and `prepare_coffee` calls, the cup count is
between 1 and 5 whenever the workflow state is `STATE_SCHEDULE_OR_NOW`,
`STATE_BREWING`, `STATE_SCHEDULING` or `STATE_WAITING`. -/
theorem cups_in_range_reachable (events : List Event) (g : Globals)
    (hrun : run_events initial events = some g) :
    (g.current_state = STATE_SCHEDULE_OR_NOW ∨ g.current_state = STATE_BREWING ∨
        g.current_state = STATE_SCHEDULING ∨ g.current_state = STATE_WAITING) →
      1 ≤ g.cups ∧ g.cups ≤ 5 := by
  have hgen : ∀ (es : List Event) (g0 g1 : Globals), cups_in_range g0 →
      run_events g0 es = some g1 → cups_in_range g1 := by
    intro es
    induction es with
    | nil =>
      intro g0 g1 h0 hr
      simp only [run_events, Option.some.injEq] at hr
      rw [← hr]
      exact h0
    | cons e es ih =>
      intro g0 g1 h0 hr
      simp only [run_events] at hr
      cases hst : step g0 e with
      | none => rw [hst] at hr; simp at hr
      | some g2 =>
        rw [hst] at hr
        exact ih g2 g1 (cups_in_range_step g0 g2 e h0 hst) hr
  have hinit : cups_in_range initial := by decide
  have hg := hgen events initial g hinit hrun
  intro hs
  apply hg
  rcases hs with hs | hs | hs | hs <;> rw [hs] <;> rfl

/-- Instance of C26: PLAY, a poll, the digit 3, the digit 2 and a poll whose
configuration is accepted lead to `STATE_WAITING` with 3 cups. -/
theorem cups_in_range_reachable_witness :
    run_events initial
      [Event.key 0 PLAY_command IrControl.NORMAL, Event.poll (env_of clock_march_10_0801 []),
        Event.key 0 (digit_command 3) IrControl.NORMAL,
        Event.key 0 (digit_command 2) IrControl.NORMAL,
        Event.poll (env_of clock_march_10_0801 [good_script])] =
      some
        { initial with
          cups := 3
          greeting_displayed := true
          key_pressed := true
          key := "0"
          scheduled_time := ⟨10, 3, 9, 0, true⟩
          current_state := STATE_WAITING
          display := [Display.display_initial_screen] } ∧
    (1 : Int) ≤ 3 ∧ (3 : Int) ≤ 5 :=
  ⟨by decide,
    cups_in_range_reachable
      [Event.key 0 PLAY_command IrControl.NORMAL, Event.poll (env_of clock_march_10_0801 []),
        Event.key 0 (digit_command 3) IrControl.NORMAL,
        Event.key 0 (digit_command 2) IrControl.NORMAL,
        Event.poll (env_of clock_march_10_0801 [good_script])]
      { initial with
        cups := 3
        greeting_displayed := true
        key_pressed := true
        key := "0"
        scheduled_time := ⟨10, 3, 9, 0, true⟩
        current_state := STATE_WAITING
        display := [Display.display_initial_screen] }
      (by decide) (Or.inr (Or.inr (Or.inr rfl)))⟩

/-! ## Resource levels: the property -/

theorem read_water_quantity_range (raw_value : Nat) (h : raw_value ≤ 4095) :
    50 ≤ read_water_quantity raw_value ∧ read_water_quantity raw_value ≤ 200 := by
  unfold read_water_quantity
  have hmod : raw_value % 65536 = raw_value := by omega
  rw [hmod]
  omega

theorem levels_after_check (g g1 : Globals) (cups water_per_cup : Int)
    (refill_wait : List (List IrControl.Call)) (hc1 : 1 ≤ cups) (hc5 : cups ≤ 5)
    (hw50 : 50 ≤ water_per_cup) (hw200 : water_per_cup ≤ 200)
    (hwater : 0 ≤ g.water_ml ∧ g.water_ml ≤ 1000)
    (hbeans : 0 ≤ g.coffee_beans_g ∧ g.coffee_beans_g ≤ 250)
    (hret : check_simulated_resources g cups water_per_cup refill_wait = some g1) :
    (0 ≤ g1.water_ml - cups * water_per_cup ∧ g1.water_ml - cups * water_per_cup ≤ 1000) ∧
    (0 ≤ g1.coffee_beans_g - cups * 10 ∧ g1.coffee_beans_g - cups * 10 ≤ 250) := by
  have hp0 : 0 ≤ cups * water_per_cup := by nlinarith
  have hp1 : cups * water_per_cup ≤ 1000 := by nlinarith
  unfold check_simulated_resources at hret
  simp only at hret
  split at hret
  · cases hwait : wait_for_play refill_wait g with
    | none => rw [hwait] at hret; simp at hret
    | some g2 =>
      rw [hwait] at hret
      simp only [Option.some.injEq] at hret
      rw [← hret]
      simp only
      constructor <;> constructor <;> omega
  · rename_i hneed
    simp only [Bool.or_eq_true, decide_eq_true_eq, not_or, not_lt] at hneed
    simp only [Option.some.injEq] at hret
    rw [← hret]
    obtain ⟨h1, h2⟩ := hneed
    constructor <;> constructor <;> omega

/-- C27: for every cup count from 1 to 5 and every water amount per cup from 50
to 200 (the range of `read_water_quantity` on a 12-bit ADC value), with
`0 ≤ water_ml ≤ 1000` and `0 ≤ coffee_beans_g ≤ 250` on entry, after
`check_simulated_resources` has returned and the decrements of `prepare_coffee`
both levels are again within 0 to 1000 and 0 to 250; so are the levels that
`prepare_coffee` returns with. -/
theorem levels_stay_in_range (g g1 : Globals) (cups water_per_cup : Int)
    (refill_wait : List (List IrControl.Call)) (hc1 : 1 ≤ cups) (hc5 : cups ≤ 5)
    (hw50 : 50 ≤ water_per_cup) (hw200 : water_per_cup ≤ 200)
    (hwater : 0 ≤ g.water_ml ∧ g.water_ml ≤ 1000)
    (hbeans : 0 ≤ g.coffee_beans_g ∧ g.coffee_beans_g ≤ 250)
    (hret : check_simulated_resources g cups water_per_cup refill_wait = some g1) :
    (0 ≤ g1.water_ml - cups * water_per_cup ∧ g1.water_ml - cups * water_per_cup ≤ 1000) ∧
    (0 ≤ g1.coffee_beans_g - cups * 10 ∧ g1.coffee_beans_g - cups * 10 ≤ 250) ∧
    (∀ raw_value : Nat, raw_value ≤ 4095 →
      50 ≤ read_water_quantity raw_value ∧ read_water_quantity raw_value ≤ 200) ∧
    (∀ (raw_value : Nat) (wait : List (List IrControl.Call)) (g2 : Globals),
      raw_value ≤ 4095 → prepare_coffee g cups raw_value wait = some g2 →
        (0 ≤ g2.water_ml ∧ g2.water_ml ≤ 1000) ∧
        (0 ≤ g2.coffee_beans_g ∧ g2.coffee_beans_g ≤ 250)) := by
  obtain ⟨ha, hb⟩ := levels_after_check g g1 cups water_per_cup refill_wait hc1 hc5 hw50
    hw200 hwater hbeans hret
  refine ⟨ha, hb, read_water_quantity_range, ?_⟩
  intro raw_value wait g2 hraw hprep
  obtain ⟨hr1, hr2⟩ := read_water_quantity_range raw_value hraw
  unfold prepare_coffee at hprep
  simp only at hprep
  cases hchk : check_simulated_resources g cups (read_water_quantity raw_value) wait with
  | none => rw [hchk] at hprep; simp at hprep
  | some g3 =>
    rw [hchk] at hprep
    simp only [Option.some.injEq] at hprep
    rw [← hprep]
    exact levels_after_check g g3 cups (read_water_quantity raw_value) wait hc1 hc5 hr1 hr2
      hwater hbeans hchk

/-- Instance of C27: 40 ml of water left, one cup of 50 ml, the refill
confirmed by PLAY: 950 ml and 240 g remain. -/
theorem levels_stay_in_range_witness :
    check_simulated_resources { initial with water_ml := 40 } 1 50
        [[⟨0, PLAY_command, IrControl.NORMAL⟩]] =
      some
        { initial with
          key_pressed := true
          key := "PLAY" } ∧
    (0 ≤ ({ initial with key_pressed := true, key := "PLAY" } : Globals).water_ml - 1 * 50 ∧
      ({ initial with key_pressed := true, key := "PLAY" } : Globals).water_ml - 1 * 50 ≤
        1000) :=
  ⟨by decide,
    (levels_stay_in_range { initial with water_ml := 40 }
      { initial with key_pressed := true, key := "PLAY" } 1 50
      [[⟨0, PLAY_command, IrControl.NORMAL⟩]] (by decide) (by decide) (by decide) (by decide)
      (by decide) (by decide) (by decide)).1⟩

end Machine

namespace IrControl

/-! ## Capture of a whole frame -/

theorem sub64_of_le (a b : Nat) (hle : b ≤ a) (ha : a < 2 ^ 64) : sub64 a b = a - b := by
  unfold sub64
  norm_num at ha ⊢
  omega

theorem getD_set (l : List Nat) (n j t : Nat) (hn : n < l.length) :
    (l.set n t).getD j 0 = if j = n then t else l.getD j 0 := by
  rw [List.getD_eq_getElem?_getD, List.getD_eq_getElem?_getD, List.getElem?_set]
  by_cases h : n = j
  · subst h
    simp [hn]
  · have h2 : ¬ j = n := fun e => h e.symm
    simp [h, h2]

theorem eq_of_getD (l1 l2 : List Nat) (hlen : l1.length = l2.length)
    (h : ∀ j, l1.getD j 0 = l2.getD j 0) : l1 = l2 := by
  apply List.ext_getElem hlen
  intro j h1 h2
  have hj := h j
  rw [List.getD_eq_getElem _ _ h1, List.getD_eq_getElem _ _ h2] at hj
  exact hj

theorem take_succ_getD (ts : List Nat) (n : Nat) (hn : n < ts.length) :
    ts.take (n + 1) = ts.take n ++ [ts.getD n 0] := by
  rw [List.take_succ, List.getElem?_eq_getElem hn, List.getD_eq_getElem _ _ hn]
  rfl

theorem run_edges_snoc (s : State) (l : List Nat) (t : Nat) :
    run_edges s (l ++ [t]) = irq_callback (run_edges s l) t := by
  unfold run_edges
  rw [List.foldl_append]
  rfl

theorem irq_check_gap_quiet (s : State) (t : Nat)
    (hq : s.ir_data.cnt = 0 ∨
      (¬ MAXIMUM_SPACE < sub64 t (s.ir_data.rises.getD (s.ir_data.cnt - 1) 0) ∧
        ¬ (s.ir_data.cnt = 1 ∧
          in_tolerance (sub64 t (s.ir_data.rises.getD (s.ir_data.cnt - 1) 0)) REPEAT_SPACE =
            true))) :
    irq_check_gap s t = s := by
  unfold irq_check_gap
  rcases hq with h0 | ⟨h1, h2⟩
  · rw [if_neg (by omega)]
  · split
    · simp only [gt_iff_lt]
      rw [if_neg h1, if_neg h2]
    · rfl

theorem irq_store_buffer (s : State) (t : Nat) :
    (irq_store s t).ir_data = ⟨s.ir_data.cnt + 1, s.ir_data.rises.set s.ir_data.cnt t⟩ := by
  simp only [irq_store, write_rise, set_cnt]

theorem classify_of_window (d : Nat)
    (h : (957 ≤ d ∧ d ≤ 1293) ∨ (1913 ≤ d ∧ d ≤ 2587)) : classify d ≠ none := by
  unfold classify
  rcases h with h | h
  · rw [if_pos ((in_tolerance_zero d).2 h)]
    simp
  · split
    · simp
    · rw [if_pos ((in_tolerance_one d).2 h)]
      simp

theorem irq_callback_store_only (s : State) (t : Nat)
    (hq : s.ir_data.cnt = 0 ∨
      (¬ MAXIMUM_SPACE < sub64 t (s.ir_data.rises.getD (s.ir_data.cnt - 1) 0) ∧
        ¬ (s.ir_data.cnt = 1 ∧
          in_tolerance (sub64 t (s.ir_data.rises.getD (s.ir_data.cnt - 1) 0)) REPEAT_SPACE =
            true)))
    (hcnt : s.ir_data.cnt + 1 ≠ 34) :
    irq_callback s t = irq_store s t := by
  unfold irq_callback
  rw [irq_check_gap_quiet s t hq]
  unfold irq_check_full
  rw [if_neg (by rw [irq_store_buffer]; exact hcnt)]

theorem run_prefix_quiet (s0 : State) (ts : List Nat)
    (hreset : s0.ir_data = ⟨0, List.replicate 34 0⟩) (hlen : ts.length = 34)
    (hlive : ∀ n, 1 ≤ n → n < 34 →
      ¬ MAXIMUM_SPACE < sub64 (ts.getD n 0) (ts.getD (n - 1) 0))
    (hnorep : ¬ in_tolerance (sub64 (ts.getD 1 0) (ts.getD 0 0)) REPEAT_SPACE = true) :
    ∀ n, n ≤ 33 →
      (run_edges s0 (ts.take n)).ir_data.cnt = n ∧
      (run_edges s0 (ts.take n)).ir_data.rises.length = 34 ∧
      (∀ j, (run_edges s0 (ts.take n)).ir_data.rises.getD j 0 =
        if j < n then ts.getD j 0 else 0) ∧
      (run_edges s0 (ts.take n)).calls = s0.calls ∧
      (run_edges s0 (ts.take n)).last_address = s0.last_address ∧
      (run_edges s0 (ts.take n)).last_command = s0.last_command := by
  intro n
  induction n with
  | zero =>
    intro _
    have h0 : run_edges s0 (ts.take 0) = s0 := rfl
    rw [h0, hreset]
    refine ⟨rfl, by simp, ?_, rfl, rfl, rfl⟩
    intro j
    rw [List.getD_eq_getElem?_getD, List.getElem?_replicate]
    by_cases hj : j < 34 <;> simp [hj]
  | succ n ih =>
    intro hn
    obtain ⟨hc, hl, hg, hcalls, hla, hlc⟩ := ih (by omega)
    rw [take_succ_getD ts n (by omega), run_edges_snoc]
    have hq : (run_edges s0 (ts.take n)).ir_data.cnt = 0 ∨
        (¬ MAXIMUM_SPACE < sub64 (ts.getD n 0)
            ((run_edges s0 (ts.take n)).ir_data.rises.getD
              ((run_edges s0 (ts.take n)).ir_data.cnt - 1) 0) ∧
          ¬ ((run_edges s0 (ts.take n)).ir_data.cnt = 1 ∧
            in_tolerance (sub64 (ts.getD n 0)
              ((run_edges s0 (ts.take n)).ir_data.rises.getD
                ((run_edges s0 (ts.take n)).ir_data.cnt - 1) 0)) REPEAT_SPACE = true)) := by
      rw [hc]
      by_cases hn0 : n = 0
      · exact Or.inl hn0
      · right
        rw [hg (n - 1), if_pos (by omega)]
        refine ⟨hlive n (by omega) (by omega), ?_⟩
        rintro ⟨h1, h2⟩
        subst h1
        exact hnorep h2
    rw [irq_callback_store_only _ _ hq (by rw [hc]; omega)]
    have hbuf := irq_store_buffer (run_edges s0 (ts.take n)) (ts.getD n 0)
    have hout := irq_store_out (run_edges s0 (ts.take n)) (ts.getD n 0)
    rw [hc] at hbuf
    rw [hbuf, hout.1, hout.2.1, hout.2.2]
    refine ⟨rfl, by simp [hl], ?_, hcalls, hla, hlc⟩
    intro j
    simp only
    rw [getD_set _ n j _ (by omega), hg j]
    by_cases hj : j = n
    · subst hj
      simp
    · by_cases hj2 : j < n
      · have : j < n + 1 := by omega
        simp [hj, hj2, this]
      · have : ¬ j < n + 1 := by omega
        simp [hj, hj2, this]

theorem run_full_frame (s0 : State) (ts : List Nat)
    (hreset : s0.ir_data = ⟨0, List.replicate 34 0⟩) (hlen : ts.length = 34)
    (hlive : ∀ n, 1 ≤ n → n < 34 →
      ¬ MAXIMUM_SPACE < sub64 (ts.getD n 0) (ts.getD (n - 1) 0))
    (hnorep : ¬ in_tolerance (sub64 (ts.getD 1 0) (ts.getD 0 0)) REPEAT_SPACE = true) :
    ∃ s34 : State, s34.ir_data = ⟨34, ts⟩ ∧ s34.calls = s0.calls ∧
      s34.last_address = s0.last_address ∧ s34.last_command = s0.last_command ∧
      run_edges s0 ts = reset_ir_data (process_ir_data s34 NORMAL) := by
  obtain ⟨hc, hl, hg, hcalls, hla, hlc⟩ := run_prefix_quiet s0 ts hreset hlen hlive hnorep 33
    (Nat.le_refl 33)
  have hts : ts = ts.take 33 ++ [ts.getD 33 0] := by
    rw [← take_succ_getD ts 33 (by omega)]
    exact (List.take_of_length_le (by omega)).symm
  have hq : (run_edges s0 (ts.take 33)).ir_data.cnt = 0 ∨
      (¬ MAXIMUM_SPACE < sub64 (ts.getD 33 0)
          ((run_edges s0 (ts.take 33)).ir_data.rises.getD
            ((run_edges s0 (ts.take 33)).ir_data.cnt - 1) 0) ∧
        ¬ ((run_edges s0 (ts.take 33)).ir_data.cnt = 1 ∧
          in_tolerance (sub64 (ts.getD 33 0)
            ((run_edges s0 (ts.take 33)).ir_data.rises.getD
              ((run_edges s0 (ts.take 33)).ir_data.cnt - 1) 0)) REPEAT_SPACE = true)) := by
    rw [hc]
    right
    rw [hg 32, if_pos (by omega)]
    exact ⟨hlive 33 (by omega) (by omega), fun h => by omega⟩
  have hbuf := irq_store_buffer (run_edges s0 (ts.take 33)) (ts.getD 33 0)
  have hout := irq_store_out (run_edges s0 (ts.take 33)) (ts.getD 33 0)
  rw [hc] at hbuf
  have hrises : (run_edges s0 (ts.take 33)).ir_data.rises.set 33 (ts.getD 33 0) = ts := by
    apply eq_of_getD
    · simp [hl, hlen]
    · intro j
      rw [getD_set _ 33 j _ (by omega), hg j]
      by_cases hj : j = 33
      · subst hj
        simp
      · by_cases hj2 : j < 33
        · simp [hj, hj2]
        · rw [if_neg hj, if_neg hj2, List.getD_eq_default _ _ (by omega)]
  rw [hrises] at hbuf
  refine ⟨irq_store (run_edges s0 (ts.take 33)) (ts.getD 33 0), hbuf, ?_, ?_, ?_, ?_⟩
  · rw [hout.1, hcalls]
  · rw [hout.2.1, hla]
  · rw [hout.2.2, hlc]
  · conv_lhs => rw [hts]
    rw [run_edges_snoc]
    unfold irq_callback
    rw [irq_check_gap_quiet _ _ hq]
    unfold irq_check_full
    rw [if_pos (by rw [hbuf])]

/-- C23: starting from a reset buffer, for every strictly increasing sequence of
34 timestamps whose first gap is at most 15000 and outside the repeat window
9563 to 12937 and whose other 32 gaps each lie in the zero or the one window,
delivering them in order to `irq_callback` does not invoke the callback during
the first 33 edges (the count after `n` edges is `n`: no reset, no repeat), and
on the 34th edge runs `process_ir_data (NORMAL)` once on the buffer holding
exactly these 34 timestamps: the callback invocations and the last pair are
those of that decode (one frame when the checksum holds, none otherwise) and
the call returns with the buffer reset, count 0. -/
theorem full_frame_capture (s0 : State) (ts : List Nat)
    (hreset : s0.ir_data = ⟨0, List.replicate 34 0⟩) (hlen : ts.length = 34)
    (hinc : ∀ i, i < 33 → ts.getD i 0 < ts.getD (i + 1) 0)
    (h64 : ∀ i, i < 34 → ts.getD i 0 < 2 ^ 64)
    (hfirst : ts.getD 1 0 - ts.getD 0 0 ≤ 15000)
    (hnorep : ¬ (9563 ≤ ts.getD 1 0 - ts.getD 0 0 ∧ ts.getD 1 0 - ts.getD 0 0 ≤ 12937))
    (hdata : ∀ k, k < 32 →
      (957 ≤ ts.getD (k + 2) 0 - ts.getD (k + 1) 0 ∧
        ts.getD (k + 2) 0 - ts.getD (k + 1) 0 ≤ 1293) ∨
      (1913 ≤ ts.getD (k + 2) 0 - ts.getD (k + 1) 0 ∧
        ts.getD (k + 2) 0 - ts.getD (k + 1) 0 ≤ 2587)) :
    (∀ n, n ≤ 33 →
      (run_edges s0 (ts.take n)).calls = s0.calls ∧
      (run_edges s0 (ts.take n)).ir_data.cnt = n) ∧
    (run_edges s0 ts).calls =
      (process_ir_data { s0 with ir_data := ⟨34, ts⟩ } NORMAL).calls ∧
    (run_edges s0 ts).last_address =
      (process_ir_data { s0 with ir_data := ⟨34, ts⟩ } NORMAL).last_address ∧
    (run_edges s0 ts).last_command =
      (process_ir_data { s0 with ir_data := ⟨34, ts⟩ } NORMAL).last_command ∧
    (checksum_ok ts →
      (run_edges s0 ts).calls =
        s0.calls ++ [⟨frame_byte ts 0, frame_byte ts 2, NORMAL⟩]) ∧
    (¬ checksum_ok ts → (run_edges s0 ts).calls = s0.calls) ∧
    (run_edges s0 ts).ir_data = ⟨0, List.replicate 34 0⟩ := by
  have hsub : ∀ n, 1 ≤ n → n < 34 →
      sub64 (ts.getD n 0) (ts.getD (n - 1) 0) = ts.getD n 0 - ts.getD (n - 1) 0 := by
    intro n h1 h2
    apply sub64_of_le
    · have := hinc (n - 1) (by omega)
      rw [show n - 1 + 1 = n by omega] at this
      omega
    · exact h64 n h2
  have hlive : ∀ n, 1 ≤ n → n < 34 →
      ¬ MAXIMUM_SPACE < sub64 (ts.getD n 0) (ts.getD (n - 1) 0) := by
    intro n h1 h2
    rw [hsub n h1 h2]
    unfold MAXIMUM_SPACE
    by_cases hn : n = 1
    · subst hn
      simpa using hfirst
    · have hd := hdata (n - 2) (by omega)
      rw [show n - 2 + 2 = n by omega, show n - 2 + 1 = n - 1 by omega] at hd
      omega
  have hrep : ¬ in_tolerance (sub64 (ts.getD 1 0) (ts.getD 0 0)) REPEAT_SPACE = true := by
    have h := hsub 1 (by omega) (by omega)
    simp only [Nat.sub_self] at h
    rw [h, in_tolerance_repeat]
    exact hnorep
  have hgaps : gaps_ok ts := by
    intro k hk
    unfold gap diff_at
    have h := hsub (k + 2) (by omega) (by omega)
    rw [show k + 2 - 1 = k + 1 by omega] at h ⊢
    rw [h]
    exact classify_of_window _ (hdata k hk)
  obtain ⟨s34, hbuf, hcalls, hla, hlc, hrun⟩ := run_full_frame s0 ts hreset hlen hlive hrep
  have hgaps34 : gaps_ok s34.ir_data.rises := by rw [hbuf]; exact hgaps
  have hlen34 : (process_ir_data s34 NORMAL).ir_data.rises.length = 34 := by
    rw [(process_buffer s34 NORMAL).1, hbuf]
    exact hlen
  have hquiet := run_prefix_quiet s0 ts hreset hlen hlive hrep
  refine ⟨fun n hn => ⟨(hquiet n hn).2.2.2.1, (hquiet n hn).1⟩, ?_⟩
  rw [hrun, reset_calls, reset_last_address, reset_last_command,
    reset_ir_data_eq _ hlen34]
  by_cases hsum : checksum_ok ts
  · have hsum34 : checksum_ok s34.ir_data.rises := by rw [hbuf]; exact hsum
    rw [process_normal_accept s34 hgaps34 hsum34,
      process_normal_accept { s0 with ir_data := ⟨34, ts⟩ } hgaps hsum]
    simp [hbuf, hcalls, hsum]
  · have hsum34 : ¬ checksum_ok s34.ir_data.rises := by rw [hbuf]; exact hsum
    rw [process_normal_checksum_fail s34 hgaps34 hsum34,
      process_normal_checksum_fail { s0 with ir_data := ⟨34, ts⟩ } hgaps hsum]
    exact ⟨hcalls, hla, hlc, fun h => absurd h hsum, fun _ => hcalls, rfl⟩

/-- Instance of C23: the 34 edges of the POWER frame after initialisation give
one callback invocation with address 0 and command `0xA2`. -/
theorem full_frame_capture_witness :
    (init_ir_irq_receiver boot).ir_data = ⟨0, List.replicate 34 0⟩ ∧
    power_frame.length = 34 ∧ checksum_ok power_frame ∧
    (run_edges (init_ir_irq_receiver boot) power_frame).calls =
      (init_ir_irq_receiver boot).calls ++
        [⟨frame_byte power_frame 0, frame_byte power_frame 2, NORMAL⟩] ∧
    (run_edges (init_ir_irq_receiver boot) power_frame).ir_data =
      ⟨0, List.replicate 34 0⟩ :=
  ⟨by decide, by decide, by decide,
    (full_frame_capture (init_ir_irq_receiver boot) power_frame (by decide) (by decide)
      (by decide) (by decide) (by decide) (by decide) (by decide)).2.2.2.2.1 (by decide),
    (full_frame_capture (init_ir_irq_receiver boot) power_frame (by decide) (by decide)
      (by decide) (by decide) (by decide) (by decide) (by decide)).2.2.2.2.2.2⟩

end IrControl
